import Mathlib

/-!
Verification of the metadata embed-and-report MCP codec.

This file gives a shallow embedding, in Lean 4, of the string- and
byte-level algorithms of the repository's metadata codec:

* `src/core/xmp-processor.ts` — XMP packet creation (`createXMPPacket`
  and its helper chain), XML escaping, field-name beautification,
  semantic RDF container classification, JPEG APP1 embedding and
  extraction, and packet parsing (`parseXMPContent`);
* `src/tools/create-metadata-report.ts` — the category organizer
  (`organizeMetadataByCategories`, `fieldMatchesPattern`) and schema
  detection (`detectSchemaType`).

Strings are modelled as `List Char` (`Str`), byte buffers as `List Nat`
(`Bytes`), and JSON-like dynamic values as the inductive type `Json`.
JavaScript string primitives (`replace` with a global regex, `split`,
`includes`, `startsWith`, `toLowerCase`, …) are modelled character by
character; ASCII case mapping is used where JavaScript would use the
Unicode tables, which coincides on every string the codec manipulates.
The theorems at the end of the file settle the frozen claims about
this code.
-/

set_option maxHeartbeats 4000000
set_option maxRecDepth 8000

namespace MCP

/-- Strings are modelled as lists of characters. -/
abbrev Str := List Char

/-- Byte buffers (JavaScript `Uint8Array`) are modelled as lists of
naturals; every constructor used below produces values below 256. -/
abbrev Bytes := List Nat

/-- Convert a Lean string literal to the `List Char` model. -/
def strOf (s : String) : Str := s.data

/-- ASCII lower-casing of one character, the effect of JavaScript
`toLowerCase` on the ASCII range. -/
def jsLowerChar (c : Char) : Char :=
  if 65 ≤ c.toNat ∧ c.toNat ≤ 90 then Char.ofNat (c.toNat + 32) else c

/-- ASCII upper-casing of one character, the effect of JavaScript
`toUpperCase` on the ASCII range. -/
def jsUpperChar (c : Char) : Char :=
  if 97 ≤ c.toNat ∧ c.toNat ≤ 122 then Char.ofNat (c.toNat - 32) else c

/-- `s.toLowerCase()` on the ASCII range. -/
def lowerStr (s : Str) : Str := s.map jsLowerChar

/-- Whitespace class of the JavaScript regex `\s`, restricted to ASCII. -/
def jsWs (c : Char) : Bool :=
  c = ' ' || c = '\t' || c = '\n' || c = '\r' || c.toNat = 11 || c.toNat = 12

/-- Boolean "p is a prefix of s" (JavaScript `startsWith`). -/
def isPre : Str → Str → Bool
  | [], _ => true
  | _ :: _, [] => false
  | p :: ps, s :: ss => p = s && isPre ps ss

/-- Boolean "p is a suffix of s" (JavaScript `endsWith`). -/
def isSuf (p s : Str) : Bool := isPre p.reverse s.reverse

/-- Boolean substring containment (JavaScript `includes`). -/
def containsSub (pat : Str) : Str → Bool
  | [] => isPre pat []
  | c :: t => isPre pat (c :: t) || containsSub pat t

/-- JavaScript `split(sep)` for a one-character separator; on the empty
string it returns `[""]`, as in JavaScript. -/
def splitOnC (sep : Char) : Str → List Str
  | [] => [[]]
  | c :: cs =>
    match splitOnC sep cs with
    | [] => [[]]
    | h :: t => if c = sep then [] :: h :: t else (c :: h) :: t

/-- Fuel-indexed worker for `replAll`.  Each step consumes at least one
input character when the pattern is nonempty, so any fuel of at least
the input length is sufficient and the zero-fuel branch is
unreachable from `replAll`. -/
def replAllF (pat rep : Str) : Nat → Str → Str
  | 0, s => s
  | _ + 1, [] => []
  | fuel + 1, c :: t =>
    if pat = [] then c :: t
    else
      if isPre pat (c :: t) then rep ++ replAllF pat rep fuel (List.drop pat.length (c :: t))
      else c :: replAllF pat rep fuel t

/-- JavaScript `replace(new RegExp(pat, 'g'), rep)` for a literal
pattern: leftmost, non-overlapping replacement.  An empty pattern is
returned unchanged (never used by the codec). -/
def replAll (pat rep : Str) (s : Str) : Str := replAllF pat rep (s.length + 1) s

/-- JavaScript `trim()` (ASCII whitespace). -/
def trimStr (s : Str) : Str :=
  ((s.dropWhile jsWs).reverse.dropWhile jsWs).reverse

/-- JavaScript `Array.prototype.join(sep)`. -/
def joinSep (sep : Str) : List Str → Str
  | [] => []
  | [x] => x
  | x :: y :: t => x ++ sep ++ joinSep sep (y :: t)

/-- The double-quote character. -/
def quoteC : Char := Char.ofNat 34

/-- The backslash character. -/
def bslashC : Char := Char.ofNat 92

/-- The opening-brace character. -/
def lbraceC : Char := Char.ofNat 123

/-- The closing-brace character. -/
def rbraceC : Char := Char.ofNat 125

/-- The apostrophe character. -/
def aposC : Char := Char.ofNat 39

/-- Dynamic (JavaScript/JSON) values: the metadata trees the codec
manipulates.  Numbers are restricted to integers, which covers every
numeric value the codec produces or consumes. -/
inductive Json where
  | null : Json
  | bool : Bool → Json
  | num : Int → Json
  | str : Str → Json
  | arr : List Json → Json
  | obj : List (Str × Json) → Json

/-- Decimal rendering of an integer, as JavaScript `String(n)`. -/
def intToStr (n : Int) : Str :=
  if n < 0 then '-' :: Nat.toDigits 10 n.natAbs else Nat.toDigits 10 n.natAbs

/-- JavaScript truthiness of a value. -/
def truthy : Json → Bool
  | Json.null => false
  | Json.bool b => b
  | Json.num n => decide (n ≠ 0)
  | Json.str s => decide (s ≠ [])
  | Json.arr _ => true
  | Json.obj _ => true

/-- Truthiness of a possibly-undefined value (`undefined` is falsy). -/
def truthyOpt : Option Json → Bool
  | none => false
  | some v => truthy v

/-- Property read `v[k]` on an object; `none` models `undefined`.
JavaScript objects have unique keys, so the first binding wins. -/
def getField (v : Json) (k : Str) : Option Json :=
  match v with
  | Json.obj fs => (fs.find? (fun p => p.1 = k)).map Prod.snd
  | _ => none

/-- Optional-chained read `v?.[k]` where `v` itself may be undefined. -/
def getFieldOpt (v : Option Json) (k : Str) : Option Json :=
  match v with
  | none => none
  | some w => getField w k

/-- JavaScript `a || b` over possibly-undefined values: the first operand
if truthy, the second otherwise. -/
def jsOr (a b : Option Json) : Option Json :=
  if truthyOpt a then a else b

/-- Insert-or-update `o[k] = v` on an object's field list: an existing
key keeps its position and receives the new value, a new key is
appended (JavaScript property order). -/
def objInsert (fs : List (Str × Json)) (k : Str) (v : Json) : List (Str × Json) :=
  if fs.any (fun p => p.1 = k) then
    fs.map (fun p => if p.1 = k then (k, v) else p)
  else fs ++ [(k, v)]

mutual

/-- JavaScript `String(v)` coercion.  Arrays join their elements with a
bare comma; plain objects display as "[object Object]". -/
def jsToString : Json → Str
  | Json.null => strOf "null"
  | Json.bool true => strOf "true"
  | Json.bool false => strOf "false"
  | Json.num n => intToStr n
  | Json.str s => s
  | Json.arr xs => joinSep [','] (jsToStringList xs)
  | Json.obj _ => strOf "[object Object]"

/-- `String` coercion of each element of a list of values. -/
def jsToStringList : List Json → List Str
  | [] => []
  | x :: t => jsToString x :: jsToStringList t

end

/-- One hexadecimal digit (lower case), for `\u00xx` escapes. -/
def hexDigit (n : Nat) : Char :=
  if n < 10 then Char.ofNat (48 + n) else Char.ofNat (87 + n)

/-- JSON string-character escaping as performed by `JSON.stringify`. -/
def jsonEscapeChar (c : Char) : Str :=
  if c = quoteC then [bslashC, quoteC]
  else if c = bslashC then [bslashC, bslashC]
  else if c = '\n' then [bslashC, 'n']
  else if c = '\r' then [bslashC, 'r']
  else if c = '\t' then [bslashC, 't']
  else if c.toNat = 8 then [bslashC, 'b']
  else if c.toNat = 12 then [bslashC, 'f']
  else if c.toNat < 32 then
    [bslashC, 'u', '0', '0', hexDigit (c.toNat / 16), hexDigit (c.toNat % 16)]
  else [c]

/-- A JSON string literal: quote, escaped characters, quote. -/
def jsonQuote (s : Str) : Str :=
  quoteC :: (s.flatMap jsonEscapeChar) ++ [quoteC]

/-- `2*d` spaces: the indentation `JSON.stringify(v, null, 2)` emits at
nesting depth `d`. -/
def jsonGap (d : Nat) : Str := List.replicate (2 * d) ' '

mutual

/-- `JSON.stringify(v, null, 2)` at nesting depth `d`. -/
def jsonStringify : Json → Nat → Str
  | Json.null, _ => strOf "null"
  | Json.bool true, _ => strOf "true"
  | Json.bool false, _ => strOf "false"
  | Json.num n, _ => intToStr n
  | Json.str s, _ => jsonQuote s
  | Json.arr [], _ => strOf "[]"
  | Json.arr (x :: t), d =>
    '[' :: '\n' :: jsonGap (d + 1) ++
      joinSep (',' :: '\n' :: jsonGap (d + 1)) (jsonStringifyList (x :: t) (d + 1)) ++
      '\n' :: jsonGap d ++ [']']
  | Json.obj [], _ => [lbraceC, rbraceC]
  | Json.obj (f :: t), d =>
    lbraceC :: '\n' :: jsonGap (d + 1) ++
      joinSep (',' :: '\n' :: jsonGap (d + 1)) (jsonStringifyFields (f :: t) (d + 1)) ++
      '\n' :: jsonGap d ++ [rbraceC]

/-- Stringification of each array element at depth `d`. -/
def jsonStringifyList : List Json → Nat → List Str
  | [], _ => []
  | x :: t, d => jsonStringify x d :: jsonStringifyList t d

/-- Stringification of each object entry, `"key": value`, at depth `d`. -/
def jsonStringifyFields : List (Str × Json) → Nat → List Str
  | [], _ => []
  | (k, v) :: t, d =>
    (jsonQuote k ++ ':' :: ' ' :: jsonStringify v d) :: jsonStringifyFields t d

end

/-- JSON source whitespace (the four characters the JSON grammar allows). -/
def jsonWsChar (c : Char) : Bool :=
  c = ' ' || c = '\t' || c = '\n' || c = '\r'

/-- Skip leading JSON whitespace. -/
def skipWs (s : Str) : Str := s.dropWhile jsonWsChar

/-- Numeric value of a hexadecimal digit, `none` on other characters. -/
def hexVal (c : Char) : Option Nat :=
  if 48 ≤ c.toNat ∧ c.toNat ≤ 57 then some (c.toNat - 48)
  else if 97 ≤ c.toNat ∧ c.toNat ≤ 102 then some (c.toNat - 87)
  else if 65 ≤ c.toNat ∧ c.toNat ≤ 70 then some (c.toNat - 55)
  else none

/-- Parse the body of a JSON string literal (after the opening quote),
returning the decoded characters and the input after the closing quote. -/
def parseJsonStr (fuel : Nat) (s : Str) : Option (Str × Str) :=
  match fuel with
  | 0 => none
  | fuel + 1 =>
    match s with
    | [] => none
    | c :: t =>
      if c = quoteC then some ([], t)
      else if c = bslashC then
        match t with
        | [] => none
        | e :: t2 =>
          let cont (ch : Char) (rest : Str) : Option (Str × Str) :=
            match parseJsonStr fuel rest with
            | some (cs, r) => some (ch :: cs, r)
            | none => none
          if e = quoteC then cont quoteC t2
          else if e = bslashC then cont bslashC t2
          else if e = '/' then cont '/' t2
          else if e = 'n' then cont '\n' t2
          else if e = 't' then cont '\t' t2
          else if e = 'r' then cont '\r' t2
          else if e = 'b' then cont (Char.ofNat 8) t2
          else if e = 'f' then cont (Char.ofNat 12) t2
          else if e = 'u' then
            match t2 with
            | h1 :: h2 :: h3 :: h4 :: t3 =>
              match hexVal h1, hexVal h2, hexVal h3, hexVal h4 with
              | some a, some b, some c2, some d =>
                cont (Char.ofNat (a * 4096 + b * 256 + c2 * 16 + d)) t3
              | _, _, _, _ => none
            | _ => none
          else none
      else
        match parseJsonStr fuel t with
        | some (cs, r) => some (c :: cs, r)
        | none => none

/-- Parse a run of decimal digits into a natural number. -/
def parseDigits (s : Str) (acc : Nat) : Nat × Str :=
  match s with
  | [] => (acc, [])
  | c :: t =>
    if 48 ≤ c.toNat ∧ c.toNat ≤ 57 then parseDigits t (acc * 10 + (c.toNat - 48))
    else (acc, c :: t)

/-- Does the input start with a decimal digit? -/
def headIsDigit (s : Str) : Bool :=
  match s with
  | [] => false
  | c :: _ => 48 ≤ c.toNat && c.toNat ≤ 57

mutual

/-- Fuel-bounded recursive-descent parser for JSON values (integers
only, which covers every document the codec emits).  Returns the value
and the remaining input. -/
def parseJsonVal (fuel : Nat) (s : Str) : Option (Json × Str) :=
  match fuel with
  | 0 => none
  | fuel + 1 =>
    let s := skipWs s
    match s with
    | [] => none
    | c :: t =>
      if c = lbraceC then
        match skipWs t with
        | [] => none
        | c2 :: t2 =>
          if c2 = rbraceC then some (Json.obj [], t2)
          else
            match parseJsonFields fuel (c2 :: t2) with
            | some (fs, r) =>
              (match skipWs r with
               | c3 :: t3 => if c3 = rbraceC then some (Json.obj fs, t3) else none
               | [] => none)
            | none => none
      else if c = '[' then
        match skipWs t with
        | [] => none
        | c2 :: t2 =>
          if c2 = ']' then some (Json.arr [], t2)
          else
            match parseJsonItems fuel (c2 :: t2) with
            | some (xs, r) =>
              (match skipWs r with
               | c3 :: t3 => if c3 = ']' then some (Json.arr xs, t3) else none
               | [] => none)
            | none => none
      else if c = quoteC then
        match parseJsonStr fuel t with
        | some (cs, r) => some (Json.str cs, r)
        | none => none
      else if isPre (strOf "true") (c :: t) then some (Json.bool true, t.drop 3)
      else if isPre (strOf "false") (c :: t) then some (Json.bool false, t.drop 4)
      else if isPre (strOf "null") (c :: t) then some (Json.null, t.drop 3)
      else if c = '-' then
        if headIsDigit t then
          let (n, r) := parseDigits t 0
          some (Json.num (-(n : Int)), r)
        else none
      else if 48 ≤ c.toNat ∧ c.toNat ≤ 57 then
        let (n, r) := parseDigits (c :: t) 0
        some (Json.num (n : Int), r)
      else none

/-- Parse a nonempty comma-separated list of `"key": value` pairs. -/
def parseJsonFields (fuel : Nat) (s : Str) : Option (List (Str × Json) × Str) :=
  match fuel with
  | 0 => none
  | fuel + 1 =>
    match skipWs s with
    | [] => none
    | c :: t =>
      if c = quoteC then
        match parseJsonStr fuel t with
        | some (k, r1) =>
          (match skipWs r1 with
           | c2 :: t2 =>
             if c2 = ':' then
               match parseJsonVal fuel t2 with
               | some (v, r2) =>
                 (match skipWs r2 with
                  | c3 :: t3 =>
                    if c3 = ',' then
                      match parseJsonFields fuel t3 with
                      | some (fs, r3) => some ((k, v) :: fs, r3)
                      | none => none
                    else some ([(k, v)], c3 :: t3)
                  | [] => some ([(k, v)], []))
               | none => none
             else none
           | [] => none)
        | none => none
      else none

/-- Parse a nonempty comma-separated list of array elements. -/
def parseJsonItems (fuel : Nat) (s : Str) : Option (List Json × Str) :=
  match fuel with
  | 0 => none
  | fuel + 1 =>
    match parseJsonVal fuel s with
    | some (v, r) =>
      (match skipWs r with
       | c :: t =>
         if c = ',' then
           match parseJsonItems fuel t with
           | some (xs, r2) => some (v :: xs, r2)
           | none => none
         else some ([v], c :: t)
       | [] => some ([v], []))
    | none => none

end

/-- `JSON.parse`: parse a complete document, requiring the whole input
to be consumed (up to trailing whitespace). -/
def jsonParse (s : Str) : Option Json :=
  match parseJsonVal (s.length + 1) s with
  | some (v, r) => if skipWs r = [] then some v else none
  | none => none

/-- `escapeXML` from `xmp-processor.ts`: replaces ampersand first, then
the four other XML special characters. -/
def escapeXML (text : Str) : Str :=
  replAll [aposC] (strOf "&apos;")
    (replAll [quoteC] (strOf "&quot;")
      (replAll (strOf ">") (strOf "&gt;")
        (replAll (strOf "<") (strOf "&lt;")
          (replAll (strOf "&") (strOf "&amp;") text))))

/-- `unescapeXML` from `xmp-processor.ts`: note that it replaces the
entity `&amp;` first, before the other four entities. -/
def unescapeXML (text : Str) : Str :=
  replAll (strOf "&apos;") [aposC]
    (replAll (strOf "&quot;") [quoteC]
      (replAll (strOf "&gt;") (strOf ">")
        (replAll (strOf "&lt;") (strOf "<")
          (replAll (strOf "&amp;") (strOf "&") text))))

mutual

/-- The contribution of one flattened entry `(fullKey, value)` in
`flattenMetadata`: null values are skipped, nested objects are recursed
into, arrays are rendered as ", "-joined strings, scalars are
stringified. -/
def flattenValue : Str → Json → List (Str × Str)
  | _, Json.null => []
  | fullKey, Json.obj fs => flattenFields fs fullKey
  | fullKey, Json.arr xs =>
    [(fullKey, joinSep (strOf ", ") (jsToStringList xs))]
  | fullKey, w => [(fullKey, jsToString w)]

/-- Iteration of `flattenMetadata` over an object's entries, joining
nested keys with underscores. -/
def flattenFields : List (Str × Json) → Str → List (Str × Str)
  | [], _ => []
  | (k, v) :: rest, pre =>
    flattenValue (if pre = [] then k else pre ++ '_' :: k) v ++ flattenFields rest pre

end

/-- `flattenMetadata` from `xmp-processor.ts`: flattens a nested
metadata object to key/value strings. -/
def flattenMetadata (m : Json) (pre : Str) : List (Str × Str) :=
  match m with
  | Json.obj fs => flattenFields fs pre
  | _ => []

/-- The schema-type alternatives of the regex
`^(product|lifestyle|orbit)_` in `beautifyFieldName`. -/
def schemaPrePats : List Str :=
  [strOf "product_", strOf "lifestyle_", strOf "orbit_"]

/-- The ordered section-prefix list of `beautifyFieldName`. -/
def sectionPrePats : List Str :=
  [strOf "scene_overview_", strOf "human_elements_", strOf "environment_",
   strOf "key_objects_", strOf "atmospheric_elements_", strOf "narrative_analysis_",
   strOf "photographic_elements_", strOf "marketing_potential_",
   strOf "product_identification_", strOf "physical_characteristics_",
   strOf "structural_elements_", strOf "design_attributes_",
   strOf "commercial_analysis_", strOf "quality_assessment_"]

/-- Strip the first matching pattern of `pats` from the front of `k`
(first match wins, at most one strip). -/
def stripFirstPat (pats : List Str) (k : Str) : Str :=
  match pats.find? (fun p => isPre p k) with
  | some p => k.drop p.length
  | none => k

/-- The whole-idiom compound terms kept intact by `beautifyFieldName`. -/
def wholeTermPats : List Str :=
  [strOf "time_of_day", strOf "number_of_people", strOf "age_group",
   strOf "construction_quality", strOf "material_quality", strOf "finish_quality"]

/-- The curated "meaningful pair" list of `beautifyFieldName` (checked
by the source, although both branches of the check produce the same
result). -/
def meaningfulPairs : List (Str × Str) :=
  [(strOf "emotional", strOf "hooks"), (strOf "social", strOf "dynamics"),
   (strOf "primary", strOf "color"), (strOf "target", strOf "market"),
   (strOf "product", strOf "type"), (strOf "design", strOf "style"),
   (strOf "visual", strOf "style"), (strOf "market", strOf "positioning"),
   (strOf "brand", strOf "alignment"), (strOf "lifestyle", strOf "values"),
   (strOf "cultural", strOf "significance"), (strOf "technical", strOf "qualities"),
   (strOf "focal", strOf "points")]

/-- One word of `toTitleCase`: upper-case the first character, lower-case
the rest. -/
def titleWord : Str → Str
  | [] => []
  | c :: t => jsUpperChar c :: t.map jsLowerChar

/-- `toTitleCase` from `xmp-processor.ts`: split on underscores,
title-case each word, join with spaces. -/
def toTitleCase (s : Str) : Str :=
  joinSep [' '] ((splitOnC '_' s).map titleWord)

/-- The name-selection core of `beautifyFieldName` (everything before
the final `toTitleCase`): strip one schema-type token, strip one
section-prefix token, then keep the whole key, both tokens, or the last
two tokens according to the source's branches. -/
def beautifyCore (key : Str) : Str :=
  let ck0 := stripFirstPat schemaPrePats key
  let ck := stripFirstPat sectionPrePats ck0
  let parts := splitOnC '_' ck
  if parts.length ≤ 1 then ck
  else
    let whole := wholeTermPats.any (fun pat => isSuf pat ck || decide (ck = pat))
    if whole then ck
    else if parts.length = 2 then joinSep ['_'] parts
    else
      let lastTwo := parts.drop (parts.length - 2)
      let matching := meaningfulPairs.any (fun pr => decide (lastTwo = [pr.1, pr.2]))
      if matching || parts.length = 3 then joinSep ['_'] lastTwo
      else joinSep ['_'] lastTwo

/-- `beautifyFieldName` from `xmp-processor.ts` (every branch of the
source returns `toTitleCase` of the selected name). -/
def beautifyFieldName (key : Str) : Str :=
  toTitleCase (beautifyCore key)

/-- `parseArrayValue` from `xmp-processor.ts`: arrays map to their
string elements, strings containing a comma are split/trimmed/filtered,
anything else becomes a one-element list. -/
def parseArrayValue (value : Json) : List Str :=
  match value with
  | Json.arr xs => jsToStringList xs
  | Json.str s =>
    if containsSub [','] s then
      ((splitOnC ',' s).map trimStr).filter (fun item => item.length > 0)
    else [s]
  | v => [jsToString v]

/-- RDF container kinds returned by `getSemanticContainerType`. -/
inductive ContainerType where
  | bag : ContainerType
  | seq : ContainerType
deriving DecidableEq

/-- The `sequentialPatterns` vocabulary of `getSemanticContainerType`. -/
def sequentialPats : List Str :=
  [strOf "demographics", strOf "age_group", strOf "gender", strOf "ethnicity",
   strOf "clothing_style",
   strOf "emotional_states", strOf "emotions", strOf "emotional_hooks",
   strOf "mood_indicators",
   strOf "food_and_beverage", strOf "food_beverage", strOf "furniture",
   strOf "key_objects", strOf "defining_props",
   strOf "focal_points", strOf "visual_elements", strOf "primary_elements",
   strOf "color_palette", strOf "primary_colors", strOf "secondary_colors",
   strOf "color_scheme",
   strOf "story_elements", strOf "narrative_elements", strOf "activities",
   strOf "interactions",
   strOf "technical_qualities", strOf "quality_indicators",
   strOf "architectural_elements", strOf "natural_elements", strOf "defining_props",
   strOf "aspirational_elements", strOf "brand_alignment_opportunities"]

/-- The `unorderedPatterns` vocabulary of `getSemanticContainerType`. -/
def unorderedPats : List Str :=
  [strOf "keywords", strOf "tags", strOf "categories", strOf "classifications",
   strOf "organizations", strOf "organisation", strOf "person_names",
   strOf "people_names",
   strOf "equipment", strOf "tools", strOf "technology", strOf "devices",
   strOf "gadgets",
   strOf "target_market", strOf "market_segments", strOf "competitive_advantages",
   strOf "advantages", strOf "business_categories", strOf "industry_categories",
   strOf "attributes", strOf "characteristics", strOf "features",
   strOf "sensory_cues", strOf "ambient_sounds", strOf "weather_conditions",
   strOf "personal_items", strOf "accessories", strOf "miscellaneous"]

/-- Case-insensitive alternative matching for the progression regexes of
`getSemanticContainerType` (for example `/young|middle|old|.../i`). -/
def matchesAnyCI (alts : List Str) (v : Str) : Bool :=
  alts.any (fun w => containsSub w (lowerStr v))

/-- `getSemanticContainerType` from `xmp-processor.ts`: unordered
vocabulary first, then ordered vocabulary, then value-progression cues,
then a human/emotional/narrative fallback, defaulting to a bag. -/
def getSemanticContainerType (fieldName originalKey : Str) (values : List Str) : ContainerType :=
  let nf := lowerStr fieldName
  let nk := lowerStr originalKey
  if unorderedPats.any (fun p => containsSub p nf || containsSub p nk) then ContainerType.bag
  else if sequentialPats.any (fun p => containsSub p nf || containsSub p nk) then ContainerType.seq
  else
    let hasAge := values.any (matchesAnyCI
      [strOf "young", strOf "middle", strOf "old", strOf "adult", strOf "child", strOf "teen"])
    let hasIntensity := values.any (matchesAnyCI
      [strOf "high", strOf "low", strOf "medium", strOf "intense", strOf "mild",
       strOf "strong", strOf "weak"])
    let hasTemporal := values.any (matchesAnyCI
      [strOf "first", strOf "second", strOf "primary", strOf "secondary",
       strOf "main", strOf "background"])
    if values.length > 0 && (hasAge || hasIntensity || hasTemporal) then ContainerType.seq
    else if containsSub (strOf "human") nf || containsSub (strOf "people") nf ||
            containsSub (strOf "emotional") nf || containsSub (strOf "visual") nf ||
            containsSub (strOf "narrative") nf || containsSub (strOf "story") nf then
      ContainerType.seq
    else ContainerType.bag

/-- The `NAMESPACES` table of `xmp-processor.ts` (the URIs used by the
packet templates). -/
def nsDC : Str := strOf "http://purl.org/dc/elements/1.1/"

/-- IPTC Extension namespace URI. -/
def nsIPTC : Str := strOf "http://iptc.org/std/Iptc4xmpExt/2008-02-29/"

/-- Adobe XMP Core namespace URI. -/
def nsXMP : Str := strOf "http://ns.adobe.com/xap/1.0/"

/-- Adobe Photoshop namespace URI. -/
def nsPhotoshop : Str := strOf "http://ns.adobe.com/photoshop/1.0/"

/-- Namespace URI lookup `NAMESPACES[schemaType]` for the three custom
schema namespaces (and `processing`). -/
def nsURI (schemaType : Str) : Str :=
  if schemaType = strOf "lifestyle" then strOf "http://orbit.com/lifestyle/1.0/"
  else if schemaType = strOf "product" then strOf "http://orbit.com/product/1.0/"
  else if schemaType = strOf "orbit" then strOf "http://orbit.com/orbit/1.0/"
  else if schemaType = strOf "processing" then strOf "http://orbit.com/processing/1.0/"
  else []

/-- Default template indentation of the RDF container generators. -/
def rdfIndent : Str := strOf "    "

/-- `generateRDFSeq` from `xmp-processor.ts`. -/
def generateRDFSeq (items : List Str) (indent : Str) : Str :=
  if items = [] then []
  else
    let listItems := joinSep ['\n']
      (items.map (fun item =>
        indent ++ strOf "    <rdf:li>" ++ escapeXML item ++ strOf "</rdf:li>"))
    '\n' :: indent ++ strOf "  <rdf:Seq>\n" ++ listItems ++
      '\n' :: indent ++ strOf "  </rdf:Seq>\n" ++ indent

/-- `generateRDFBag` from `xmp-processor.ts`. -/
def generateRDFBag (items : List Str) (indent : Str) : Str :=
  if items = [] then []
  else
    let listItems := joinSep ['\n']
      (items.map (fun item =>
        indent ++ strOf "    <rdf:li>" ++ escapeXML item ++ strOf "</rdf:li>"))
    '\n' :: indent ++ strOf "  <rdf:Bag>\n" ++ listItems ++
      '\n' :: indent ++ strOf "  </rdf:Bag>\n" ++ indent

/-- `generateSemanticRDFContainer` from `xmp-processor.ts`: a Seq or a
Bag according to `getSemanticContainerType`. -/
def generateSemanticRDFContainer (items : List Str) (fieldName originalKey : Str)
    (indent : Str) : Str :=
  if items = [] then []
  else if getSemanticContainerType fieldName originalKey items = ContainerType.seq then
    generateRDFSeq items indent
  else generateRDFBag items indent

/-- `generateRDFAlt` from `xmp-processor.ts` (language-alternative
container; the template quotes the language with apostrophes). -/
def generateRDFAlt (value : Str) (lang : Str) (indent : Str) : Str :=
  '\n' :: indent ++ strOf "  <rdf:Alt>\n" ++ indent ++
    strOf "    <rdf:li xml:lang=" ++ [aposC] ++ lang ++ [aposC] ++ ['>'] ++
    escapeXML value ++ strOf "</rdf:li>\n" ++ indent ++ strOf "  </rdf:Alt>\n" ++ indent

/-- `metadata.scene_overview?.setting || metadata.setting`-style reads,
used throughout the mapping helpers. -/
def nestedOr (metadata : Json) (section1 k : Str) : Option Json :=
  jsOr (getFieldOpt (getField metadata section1) k) (getField metadata k)

/-- `generateSceneDescription` from `xmp-processor.ts`. -/
def generateSceneDescription (metadata : Json) : Str :=
  let setting := nestedOr metadata (strOf "scene_overview") (strOf "setting")
  let timeOfDay := nestedOr metadata (strOf "scene_overview") (strOf "time_of_day")
  let activity := nestedOr metadata (strOf "scene_overview") (strOf "primary_activity")
  let numPeople := nestedOr metadata (strOf "human_elements") (strOf "number_of_people")
  let mood := nestedOr metadata (strOf "atmospheric_elements") (strOf "mood")
  let parts : List Str :=
    (if truthyOpt setting && truthyOpt activity then
      [strOf "A scene of " ++ lowerStr (jsToString (activity.getD Json.null)) ++
        strOf " in " ++ lowerStr (jsToString (setting.getD Json.null))]
     else []) ++
    (if truthyOpt numPeople then
      [strOf "featuring " ++ jsToString (numPeople.getD Json.null) ++ strOf " people"]
     else []) ++
    (if truthyOpt timeOfDay then
      [strOf "during " ++ lowerStr (jsToString (timeOfDay.getD Json.null))]
     else []) ++
    (if truthyOpt mood then
      [strOf "with a " ++ lowerStr (jsToString (mood.getD Json.null)) ++ strOf " atmosphere"]
     else [])
  if parts.length > 0 then joinSep [' '] parts ++ strOf "." else []

/-- Deduplication preserving first occurrences (`[...new Set(xs)]`). -/
def dedupAux : List Str → List Str → List Str
  | [], _ => []
  | x :: t, seen => if seen.contains x then dedupAux t seen else x :: dedupAux t (x :: seen)

/-- `[...new Set(xs)]`: order-preserving deduplication. -/
def dedupFirst (l : List Str) : List Str := dedupAux l []

/-- `extractKeywords` from `xmp-processor.ts`. -/
def extractKeywords (metadata : Json) : List Str :=
  let foodBev := nestedOr metadata (strOf "key_objects") (strOf "food_and_beverage")
  let furniture := nestedOr metadata (strOf "key_objects") (strOf "furniture")
  let activity := nestedOr metadata (strOf "scene_overview") (strOf "primary_activity")
  let location := nestedOr metadata (strOf "environment") (strOf "location_type")
  let kw : List Str :=
    (if truthyOpt foodBev then
      (parseArrayValue (foodBev.getD Json.null)).map lowerStr else []) ++
    (if truthyOpt furniture then
      (parseArrayValue (furniture.getD Json.null)).map lowerStr else []) ++
    (if truthyOpt activity then [lowerStr (jsToString (activity.getD Json.null))] else []) ++
    (if truthyOpt location then [lowerStr (jsToString (location.getD Json.null))] else [])
  (dedupFirst kw).take 10

/-- `mapToDublinCore` from `xmp-processor.ts`: title from
setting/activity, synthesized description, keyword subjects, fixed
creator. -/
def mapToDublinCore (metadata : Json) : List (Str × Json) :=
  let setting := nestedOr metadata (strOf "scene_overview") (strOf "setting")
  let activity := nestedOr metadata (strOf "scene_overview") (strOf "primary_activity")
  let titleFields : List (Str × Json) :=
    if truthyOpt setting && truthyOpt activity then
      [(strOf "title", Json.str (jsToString (setting.getD Json.null) ++ strOf " - " ++
        jsToString (activity.getD Json.null)))]
    else if truthyOpt setting then [(strOf "title", setting.getD Json.null)]
    else []
  let descr := generateSceneDescription metadata
  let descrFields : List (Str × Json) :=
    if descr ≠ [] then [(strOf "description", Json.str descr)] else []
  let keywords := extractKeywords metadata
  let subjFields : List (Str × Json) :=
    if keywords.length > 0 then [(strOf "subject", Json.arr (keywords.map Json.str))] else []
  titleFields ++ descrFields ++ subjFields ++
    [(strOf "creator", Json.str (strOf "ORBIT AI Analysis System"))]

/-- `mapToIPTC` from `xmp-processor.ts`. -/
def mapToIPTC (metadata : Json) : List (Str × Json) :=
  let demographics := nestedOr metadata (strOf "human_elements") (strOf "demographics")
  let personFields : List (Str × Json) :=
    if truthyOpt demographics then
      let peopleArray := parseArrayValue (demographics.getD Json.null)
      if peopleArray.length > 0 then
        [(strOf "PersonInImage", Json.arr (peopleArray.map Json.str))]
      else []
    else []
  let location := nestedOr metadata (strOf "environment") (strOf "location_type")
  let locStr := jsToString (location.getD Json.null)
  let orgFields : List (Str × Json) :=
    if truthyOpt location &&
       (containsSub (strOf "restaurant") locStr || containsSub (strOf "bar") locStr ||
        containsSub (strOf "cafe") locStr) then
      [(strOf "OrganisationInImageName",
        Json.arr [Json.str (strOf "Unidentified " ++ lowerStr locStr)])]
    else []
  personFields ++ orgFields

/-- `mapToXMPCore` from `xmp-processor.ts`; the creation timestamp is a
parameter of the embedding. -/
def mapToXMPCore (now : Str) : List (Str × Json) :=
  [(strOf "CreatorTool", Json.str (strOf "ORBIT Metadata MCP v2.1")),
   (strOf "CreateDate", Json.str now),
   (strOf "MetadataDate", Json.str now)]

/-- `mapToPhotoshop` from `xmp-processor.ts`. -/
def mapToPhotoshop (metadata : Json) : List (Str × Json) :=
  let marketingHooks := nestedOr metadata (strOf "marketing_potential") (strOf "emotional_hooks")
  let targetDemo := nestedOr metadata (strOf "marketing_potential") (strOf "target_demographic")
  let instrFields : List (Str × Json) :=
    if truthyOpt marketingHooks || truthyOpt targetDemo then
      let instructions :=
        strOf "AI-analyzed image suitable for" ++
        (if truthyOpt targetDemo then
          ' ' :: jsToString (targetDemo.getD Json.null) ++ strOf " marketing" else []) ++
        (if truthyOpt marketingHooks then
          strOf ". Emotional themes: " ++ jsToString (marketingHooks.getD Json.null) else [])
      [(strOf "Instructions", Json.str instructions)]
    else []
  instrFields ++
    [(strOf "Source", Json.str (strOf "AI-generated metadata analysis")),
     (strOf "ColorMode", Json.str (strOf "3"))]

/-- Fuel-indexed worker for `wsToUnderscore`; each step consumes at
least one character, so fuel of at least the input length suffices. -/
def wsToUnderscoreF : Nat → Str → Str
  | 0, s => s
  | _ + 1, [] => []
  | fuel + 1, c :: t =>
    if jsWs c then '_' :: wsToUnderscoreF fuel (t.dropWhile jsWs)
    else c :: wsToUnderscoreF fuel t

/-- JavaScript `replace(/\s+/g, '_')`: each maximal whitespace run
becomes one underscore. -/
def wsToUnderscore (s : Str) : Str := wsToUnderscoreF (s.length + 1) s

/-- `generateDublinCoreBlock` from `xmp-processor.ts`. -/
def generateDublinCoreBlock (dcFields : List (Str × Json)) : Str :=
  let fields := dcFields.flatMap (fun p =>
    let k := p.1
    let v := p.2
    if k = strOf "title" ∨ k = strOf "description" then
      strOf "          <dc:" ++ k ++ ['>'] ++
        generateRDFAlt (jsToString v) (strOf "x-default") rdfIndent ++
        strOf "</dc:" ++ k ++ strOf ">\n"
    else
      match v with
      | Json.arr xs =>
        if k = strOf "subject" then
          strOf "          <dc:" ++ k ++ ['>'] ++
            generateRDFBag (jsToStringList xs) rdfIndent ++
            strOf "</dc:" ++ k ++ strOf ">\n"
        else
          strOf "          <dc:" ++ k ++ ['>'] ++ escapeXML (jsToString v) ++
            strOf "</dc:" ++ k ++ strOf ">\n"
      | _ =>
        strOf "          <dc:" ++ k ++ ['>'] ++ escapeXML (jsToString v) ++
          strOf "</dc:" ++ k ++ strOf ">\n")
  strOf "        <rdf:Description rdf:about=\"\"\n          xmlns:dc=\"" ++ nsDC ++
    strOf "\">\n" ++ fields ++ strOf "        </rdf:Description>"

/-- `generateIPTCBlock` from `xmp-processor.ts`. -/
def generateIPTCBlock (iptcFields : List (Str × Json)) : Str :=
  let fields := iptcFields.flatMap (fun p =>
    let k := p.1
    match p.2 with
    | Json.arr xs =>
      strOf "          <Iptc4xmpExt:" ++ k ++ ['>'] ++
        generateSemanticRDFContainer (jsToStringList xs) k [] rdfIndent ++
        strOf "</Iptc4xmpExt:" ++ k ++ strOf ">\n"
    | v =>
      strOf "          <Iptc4xmpExt:" ++ k ++ ['>'] ++ escapeXML (jsToString v) ++
        strOf "</Iptc4xmpExt:" ++ k ++ strOf ">\n")
  strOf "        <rdf:Description rdf:about=\"\"\n          xmlns:Iptc4xmpExt=\"" ++
    nsIPTC ++ strOf "\">\n" ++ fields ++ strOf "        </rdf:Description>"

/-- `generateXMPCoreBlock` from `xmp-processor.ts`. -/
def generateXMPCoreBlock (xmpFields : List (Str × Json)) : Str :=
  let fields := xmpFields.flatMap (fun p =>
    strOf "          <xmp:" ++ p.1 ++ ['>'] ++ escapeXML (jsToString p.2) ++
      strOf "</xmp:" ++ p.1 ++ strOf ">\n")
  strOf "        <rdf:Description rdf:about=\"\"\n          xmlns:xmp=\"" ++ nsXMP ++
    strOf "\">\n" ++ fields ++ strOf "        </rdf:Description>"

/-- `generatePhotoshopBlock` from `xmp-processor.ts`. -/
def generatePhotoshopBlock (psFields : List (Str × Json)) : Str :=
  let fields := psFields.flatMap (fun p =>
    strOf "          <photoshop:" ++ p.1 ++ ['>'] ++ escapeXML (jsToString p.2) ++
      strOf "</photoshop:" ++ p.1 ++ strOf ">\n")
  strOf "        <rdf:Description rdf:about=\"\"\n          xmlns:photoshop=\"" ++
    nsPhotoshop ++ strOf "\">\n" ++ fields ++ strOf "        </rdf:Description>"

/-- The processing-info entries `createXMPPacket` and
`generateCompleteRawJSON` build (timestamp passed as a parameter). -/
def processingPairs (schemaType now : Str) : List (Str × Str) :=
  [(strOf "processed_timestamp", now),
   (strOf "processor_version", strOf "1.0.0"),
   (strOf "schema_type", schemaType),
   (strOf "processor_location", strOf "local_memory_stream")]

/-- `generateCompleteRawJSON` from `xmp-processor.ts`: the Ledger value
(original tree, beautified flat fields, standard-namespace mappings,
and processing info). -/
def generateCompleteRawJSON (flattened : List (Str × Str)) (schemaType : Str)
    (originalMetadata : Json) (now : Str) : Json :=
  let beautified := flattened.foldl
    (fun acc p =>
      let fieldName := wsToUnderscore (beautifyFieldName p.1)
      let arrayValues := parseArrayValue (Json.str p.2)
      objInsert acc fieldName
        (if arrayValues.length > 1 then Json.arr (arrayValues.map Json.str)
         else Json.str p.2))
    []
  Json.obj
    [(strOf "original_metadata", originalMetadata),
     (strOf "flattened_fields", Json.obj beautified),
     (strOf "standard_metadata", Json.obj
       [(strOf "dublin_core", Json.obj (mapToDublinCore originalMetadata)),
        (strOf "iptc", Json.obj (mapToIPTC originalMetadata)),
        (strOf "xmp_core", Json.obj (mapToXMPCore now)),
        (strOf "photoshop", Json.obj (mapToPhotoshop originalMetadata))]),
     (strOf "processing", Json.obj
       ((processingPairs schemaType now).map (fun p => (p.1, Json.str p.2))))]

/-- `generateCustomORBITBlock` from `xmp-processor.ts`: every flattened
field as a canonicalized element (multi-valued fields as semantic RDF
containers), then the `Raw_JSON` Ledger element. -/
def generateCustomORBITBlock (flattened : List (Str × Str)) (schemaType : Str)
    (originalMetadata : Json) (now : Str) : Str :=
  let fields := flattened.flatMap (fun p =>
    let fieldName := wsToUnderscore (beautifyFieldName p.1)
    let arrayValues := parseArrayValue (Json.str p.2)
    if arrayValues.length > 1 then
      strOf "          <" ++ schemaType ++ ':' :: fieldName ++ ['>'] ++
        generateSemanticRDFContainer arrayValues fieldName p.1 rdfIndent ++
        strOf "</" ++ schemaType ++ ':' :: fieldName ++ strOf ">\n"
    else
      strOf "          <" ++ schemaType ++ ':' :: fieldName ++ ['>'] ++
        escapeXML p.2 ++ strOf "</" ++ schemaType ++ ':' :: fieldName ++ strOf ">\n")
  let rawField :=
    if truthy originalMetadata then
      let rawJson := jsonStringify (generateCompleteRawJSON flattened schemaType
        originalMetadata now) 0
      strOf "          <" ++ schemaType ++ strOf ":Raw_JSON>" ++ escapeXML rawJson ++
        strOf "</" ++ schemaType ++ strOf ":Raw_JSON>\n"
    else []
  strOf "        <rdf:Description rdf:about=\"\"\n          xmlns:" ++ schemaType ++
    strOf "=\"" ++ nsURI schemaType ++ strOf "\">\n" ++ fields ++ rawField ++
    strOf "        </rdf:Description>"

/-- `generateProcessingBlock` from `xmp-processor.ts`. -/
def generateProcessingBlock (processingInfo : List (Str × Str)) : Str :=
  let fields := processingInfo.flatMap (fun p =>
    let fieldName := wsToUnderscore (beautifyFieldName p.1)
    strOf "          <processing:" ++ fieldName ++ ['>'] ++ escapeXML p.2 ++
      strOf "</processing:" ++ fieldName ++ strOf ">\n")
  strOf "        <rdf:Description rdf:about=\"\"\n          xmlns:processing=\"" ++
    nsURI (strOf "processing") ++ strOf "\">\n" ++ fields ++
    strOf "        </rdf:Description>"

/-- `generateXMPContent` from `xmp-processor.ts`: standard blocks,
custom schema block (with the Ledger), processing block, joined by
blank lines. -/
def generateXMPContent (flattened : List (Str × Str)) (schemaType : Str)
    (processingInfo : List (Str × Str)) (originalMetadata : Json) (now : Str) : Str :=
  let dcFields := mapToDublinCore originalMetadata
  let iptcFields := mapToIPTC originalMetadata
  let xmpFields := mapToXMPCore now
  let psFields := mapToPhotoshop originalMetadata
  let blocks : List Str :=
    (if dcFields.length > 0 then [generateDublinCoreBlock dcFields] else []) ++
    (if iptcFields.length > 0 then [generateIPTCBlock iptcFields] else []) ++
    (if xmpFields.length > 0 then [generateXMPCoreBlock xmpFields] else []) ++
    (if psFields.length > 0 then [generatePhotoshopBlock psFields] else []) ++
    [generateCustomORBITBlock flattened schemaType originalMetadata now] ++
    (if processingInfo.length > 0 then [generateProcessingBlock processingInfo] else [])
  joinSep (strOf "\n\n") blocks

/-- `wrapXMPContent` from `xmp-processor.ts`: the xpacket envelope
(whose `begin` attribute carries a byte-order mark). -/
def wrapXMPContent (content : Str) (prettyPrint : Bool) : Str :=
  let indent := if prettyPrint then strOf "\n      " else []
  let spacing := if prettyPrint then strOf "\n    " else []
  strOf "<?xpacket begin=\"﻿\" id=\"W5M0MpCehiHzreSzNTczkc9d\"?>\n    <x:xmpmeta xmlns:x=\"adobe:ns:meta/\" x:xmptk=\"ORBIT Metadata MCP v2.1\">\n      <rdf:RDF xmlns:rdf=\"http://www.w3.org/1999/02/22-rdf-syntax-ns#\">" ++
    indent ++ content ++ spacing ++
    strOf "\n      </rdf:RDF>\n    </x:xmpmeta>\n    <?xpacket end=\"w\"?>"

/-- UTF-8 encoding of one character (the layout `TextEncoder` emits). -/
def utf8EncodeChar (c : Char) : List Nat :=
  let n := c.toNat
  if n < 128 then [n]
  else if n < 2048 then [192 + n / 64, 128 + n % 64]
  else if n < 65536 then [224 + n / 4096, 128 + (n / 64) % 64, 128 + n % 64]
  else [240 + n / 262144, 128 + (n / 4096) % 64, 128 + (n / 64) % 64, 128 + n % 64]

/-- UTF-8 encoding of a string (`new TextEncoder().encode(s)`). -/
def utf8Encode (s : Str) : Bytes := s.flatMap utf8EncodeChar

/-- The result record of `createXMPPacket` (`XMPPacketInfo`). -/
structure XMPPacketInfo where
  xmp_content : Str
  packet_size : Nat
  namespace_count : Nat
  field_count : Nat

/-- `createXMPPacket` from `xmp-processor.ts`.  The wall-clock timestamp
the source reads from `new Date()` is the explicit parameter `now`. -/
def createXMPPacket (metadata : Json) (schemaType : Str)
    (includeWrappers prettyPrint includeProcessingInfo : Bool) (now : Str) : XMPPacketInfo :=
  let processingInfo := if includeProcessingInfo then processingPairs schemaType now else []
  let flattened := flattenMetadata metadata schemaType
  let content0 := generateXMPContent flattened schemaType processingInfo metadata now
  let content := if includeWrappers then wrapXMPContent content0 prettyPrint else content0
  { xmp_content := content,
    packet_size := (utf8Encode content).length,
    namespace_count := 1,
    field_count := flattened.length +
      (if includeProcessingInfo then processingInfo.length else 0) }

/-- Streaming UTF-8 decoder state: `none` between scalar values,
`some (acc, need)` inside a multi-byte sequence with accumulated high
bits `acc` and `need` continuation bytes still expected. -/
abbrev Utf8State := Option (Nat × Nat)

/-- Streaming UTF-8 decoding, one byte per step.  Well-formed sequences
decode to their scalar value; malformed or truncated sequences produce
the replacement character U+FFFD (the byte at fault is consumed, which
is where this model may place replacement characters slightly
differently from `TextDecoder` on invalid input — no theorem below
evaluates it on invalid input). -/
def utf8DecodeSM : Utf8State → Bytes → Str
  | none, [] => []
  | some _, [] => [Char.ofNat 65533]
  | none, b :: t =>
    if b < 128 then Char.ofNat b :: utf8DecodeSM none t
    else if 192 ≤ b ∧ b < 224 then utf8DecodeSM (some (b - 192, 1)) t
    else if 224 ≤ b ∧ b < 240 then utf8DecodeSM (some (b - 224, 2)) t
    else if 240 ≤ b ∧ b < 248 then utf8DecodeSM (some (b - 240, 3)) t
    else Char.ofNat 65533 :: utf8DecodeSM none t
  | some (acc, need), b :: t =>
    if 128 ≤ b ∧ b < 192 then
      if need ≤ 1 then Char.ofNat (acc * 64 + (b - 128)) :: utf8DecodeSM none t
      else utf8DecodeSM (some (acc * 64 + (b - 128), need - 1)) t
    else Char.ofNat 65533 :: utf8DecodeSM none t

/-- UTF-8 decoding (`new TextDecoder().decode(bytes)` in its default
non-fatal mode). -/
def utf8Decode (bs : Bytes) : Str := utf8DecodeSM none bs

/-- The XMP APP1 signature bytes: `http://ns.adobe.com/xap/1.0/`
followed by a NUL (29 bytes, as in the source's `app1Header`). -/
def xmpSigBytes : Bytes := (strOf "http://ns.adobe.com/xap/1.0/").map Char.toNat ++ [0]

/-- The APP1 header `embedXMPInJPEG` constructs: marker, big-endian
length (`(totalLength >> 8) & 0xFF`, `totalLength & 0xFF`), signature. -/
def app1HeaderOf (xmpLen : Nat) : Bytes :=
  let totalLength := 33 + xmpLen - 2
  [255, 225, totalLength / 256 % 256, totalLength % 256] ++ xmpSigBytes

/-- `isJPEG` from `xmp-processor.ts`: at least two bytes, starting with
the start-of-image marker FF D8. -/
def isJPEG (buffer : Bytes) : Bool :=
  match buffer with
  | b0 :: b1 :: _ => b0 = 255 && b1 = 216
  | _ => false

/-- `embedXMPInJPEG` from `xmp-processor.ts`: the output is the two
start-of-image bytes, the APP1 header, the UTF-8 packet bytes, then the
rest of the original buffer. -/
def embedXMPInJPEG (buffer : Bytes) (xmpPacket : Str) : Bytes :=
  let xmpBytes := utf8Encode xmpPacket
  buffer.take 2 ++ app1HeaderOf xmpBytes.length ++ xmpBytes ++ buffer.drop 2

/-- `embedXMPInImage` from `xmp-processor.ts`: JPEG inputs are embedded,
anything else raises (the catch block re-wraps the message). -/
def embedXMPInImage (buffer : Bytes) (xmpPacket : Str) : Except Str Bytes :=
  if isJPEG buffer then Except.ok (embedXMPInJPEG buffer xmpPacket)
  else Except.error (strOf "XMP embedding failed: Image must be JPEG format for XMP embedding. Use ImageConverter to convert first.")

/-- JavaScript `buffer.slice(start, start + len)` where `len` may be a
negative number: an end bound at or before the start yields the empty
slice. -/
def sliceJS (l : Bytes) (start : Nat) (stop : Int) : Bytes :=
  if stop ≤ (start : Int) then [] else (l.drop start).take (stop.toNat - start)

/-- The scan loop of `extractXMPFromJPEG`, expressed over the suffix of
the buffer starting at the loop index `i` (so that the recursion is
structural).  The loop guard `i < buffer.length - 30` becomes
"the suffix is longer than 30 bytes"; `skip` counts buffer positions
the loop jumps over without examining (the source's
`i += segmentLength + 2` followed by the loop's `i++` advances
`segmentLength + 3` positions in total: the 4 examined marker/length
bytes plus `segmentLength - 1` skipped ones).  On an APP1 marker whose
body starts with the XMP signature the payload
`slice(i + 33, i + 33 + (segmentLength - 31))` is decoded. -/
def scanXMP : Nat → Bytes → Option Str
  | _ + 1, [] => none
  | skip + 1, _ :: t => scanXMP skip t
  | 0, [] => none
  | 0, b0 :: r1 =>
    if r1.length + 1 > 30 then
      match r1.get? 0, r1.get? 1, r1.get? 2 with
      | some b1, some b2, some b3 =>
        if b0 = 255 ∧ b1 = 225 then
          let segmentLength := b2 * 256 + b3
          if xmpSigBytes.isPrefixOf (r1.drop 3) then
            some (utf8Decode (sliceJS (b0 :: r1) 33
              ((33 : Int) + ((segmentLength : Int) - 31))))
          else scanXMP (segmentLength + 2) r1
        else scanXMP 0 r1
      | _, _, _ => none
    else none

/-- `extractXMPFromJPEG` from `xmp-processor.ts`. -/
def extractXMPFromJPEG (buffer : Bytes) : Option Str := scanXMP 0 buffer

/-- The leading `<ns:Raw_JSON>` literal of the Ledger regexes in
`parseXMPContent`. -/
def rawJsonOpenTag (ns : Str) : Str := '<' :: ns ++ strOf ":Raw_JSON>"

/-- The trailing `</ns:Raw_JSON>` literal of the Ledger regexes. -/
def rawJsonCloseTag (ns : Str) : Str := strOf "</" ++ ns ++ strOf ":Raw_JSON>"

/-- First match of the anchored regex `openT [^<]+ closeT` scanning left
to right: at each position, the opening literal followed by a nonempty
run of non-`<` characters followed by the closing literal. -/
def findLedger (openT closeT : Str) : Str → Option Str
  | [] => none
  | c :: t =>
    if isPre openT (c :: t) then
      let rest := List.drop openT.length (c :: t)
      let body := rest.takeWhile (fun ch => ch ≠ '<')
      if body ≠ [] ∧ isPre closeT (rest.drop body.length) then some body
      else findLedger openT closeT t
    else findLedger openT closeT t

/-- The Ledger corruption repair of `parseXMPContent`:
`replace(/\.\s+"/g, ', "')` — a period, one or more whitespace
characters, then a double quote, rewritten to a comma separator. -/
def repairJSONF : Nat → Str → Str
  | 0, s => s
  | _ + 1, [] => []
  | fuel + 1, c :: t =>
    if c = '.' then
      if (t.takeWhile jsWs) ≠ [] then
        match t.drop (t.takeWhile jsWs).length with
        | q :: r2 =>
          if q = quoteC then ',' :: ' ' :: quoteC :: repairJSONF fuel r2
          else '.' :: repairJSONF fuel t
        | [] => '.' :: repairJSONF fuel t
      else '.' :: repairJSONF fuel t
    else c :: repairJSONF fuel t

/-- The repair proper; fuel of the input length plus one is always
sufficient since each step consumes at least one character. -/
def repairJSON (s : Str) : Str := repairJSONF (s.length + 1) s

/-- The Priority-1 (Ledger) path of `parseXMPContent` for one candidate
namespace: capture the `Raw_JSON` element, XML-unescape it, repair the
period separators, JSON-decode, and if the document carries an
`original_metadata` or `flattened_fields` section, return the repaired
string together with the original tree's fields.  (When
`original_metadata` is a truthy non-object, `Object.assign` copies no
named properties; the string corner case, which would copy index
properties, never arises for documents this codec writes.) -/
def tryLedger (ns : Str) (xmpContent : Str) : Option Json :=
  match findLedger (rawJsonOpenTag ns) (rawJsonCloseTag ns) xmpContent with
  | none => none
  | some captured =>
    let rawJsonString := repairJSON (unescapeXML captured)
    match jsonParse rawJsonString with
    | none => none
    | some parsed =>
      if truthyOpt (getField parsed (strOf "original_metadata")) ||
         truthyOpt (getField parsed (strOf "flattened_fields")) then
        let base : List (Str × Json) := [(strOf "Raw_JSON", Json.str rawJsonString)]
        some (Json.obj (match getField parsed (strOf "original_metadata") with
          | some (Json.obj fs) => fs.foldl (fun acc p => objInsert acc p.1 p.2) base
          | _ => base))
      else none

/-- One step of the Priority-2 regex scrape
`/<ns:([^>]+)>([^<]+)<\/ns:[^>]+>/g`: collect every (element name,
unescaped value) pair, scanning left to right. -/
def scrapeAux (openT closeT : Str) : Str → List (Str × Str)
  | [] => []
  | c :: t =>
    (if isPre openT (c :: t) then
      let r1 := List.drop openT.length (c :: t)
      let name := r1.takeWhile (fun ch => ch ≠ '>')
      match name, r1.drop name.length with
      | _ :: _, _ :: r2 =>
        let value := r2.takeWhile (fun ch => ch ≠ '<')
        let r3 := r2.drop value.length
        if value ≠ [] ∧ isPre closeT r3 then
          let r4 := r3.drop closeT.length
          let name2 := r4.takeWhile (fun ch => ch ≠ '>')
          match name2, r4.drop name2.length with
          | _ :: _, _ :: _ => [(name, unescapeXML value)]
          | _, _ => []
        else []
      | _, _ => []
    else []) ++ scrapeAux openT closeT t

/-- The Priority-2 scrape of one namespace: its element/value pairs as
an object (skipping the `Raw_JSON` element itself), or `none` when the
namespace has no matches. -/
def scrapeNamespaceObj (ns : Str) (xmp : Str) : Option (Str × Json) :=
  let pairs := scrapeAux ('<' :: ns ++ [':']) (strOf "</" ++ ns ++ [':']) xmp
  if pairs = [] then none
  else some (ns, Json.obj (pairs.foldl
    (fun acc p =>
      if p.1 = strOf "Raw_JSON" then acc else objInsert acc p.1 (Json.str p.2)) []))

/-- `parseXMPContent` from `xmp-processor.ts`: the Ledger path for each
schema namespace in order, then the regex scrape over the four custom
namespaces. -/
def parseXMPContent (xmpContent : Str) : Json :=
  match tryLedger (strOf "lifestyle") xmpContent with
  | some m => m
  | none =>
    match tryLedger (strOf "product") xmpContent with
    | some m => m
    | none =>
      match tryLedger (strOf "orbit") xmpContent with
      | some m => m
      | none =>
        Json.obj (List.filterMap (fun ns => scrapeNamespaceObj ns xmpContent)
          [strOf "lifestyle", strOf "product", strOf "orbit", strOf "processing"])

/-- `Object.keys(v).length` for a dynamic value. -/
def keysCount : Json → Nat
  | Json.obj fs => fs.length
  | Json.arr xs => xs.length
  | Json.str s => s.length
  | _ => 0

/-- `detectSchemaType` from `xmp-processor.ts` (the processor-side
variant, defaulting to `orbit`). -/
def detectSchemaTypeX (pm : Json) : Str :=
  if truthyOpt (getField pm (strOf "lifestyle")) &&
     keysCount ((getField pm (strOf "lifestyle")).getD Json.null) > 0 then strOf "lifestyle"
  else if truthyOpt (getField pm (strOf "product")) &&
     keysCount ((getField pm (strOf "product")).getD Json.null) > 0 then strOf "product"
  else strOf "orbit"

/-- The result record of `extractXMPFromImage`. -/
structure XMPExtractResult where
  xmp_found : Bool
  xmp_content : Option Str
  parsed_metadata : Option Json
  schema_type : Option Str

/-- `extractXMPFromImage` from `xmp-processor.ts`: scan JPEG inputs for
an XMP segment; a missing or empty payload reports absence; otherwise
parse and detect the schema.  The source wraps the body in a catch-all
returning absence, so the function is total at the public interface. -/
def extractXMPFromImage (buffer : Bytes) : XMPExtractResult :=
  let xmpData := if isJPEG buffer then extractXMPFromJPEG buffer else none
  match xmpData with
  | none => { xmp_found := false, xmp_content := none, parsed_metadata := none,
              schema_type := none }
  | some s =>
    if s = [] then
      { xmp_found := false, xmp_content := none, parsed_metadata := none,
        schema_type := none }
    else
      let parsed := parseXMPContent s
      { xmp_found := true, xmp_content := some s, parsed_metadata := some parsed,
        schema_type := some (detectSchemaTypeX parsed) }

end MCP

namespace Report

open MCP

/-- The reserved Ledger key that `organizeMetadataByCategories` and the
catch-all both exclude. -/
def rawJsonKey : Str := strOf "Raw_JSON"

/-- The schema/standard namespace tokens stripped by
`fieldMatchesPattern`'s method 2 (the regex
`^(lifestyle|product|orbit|dublin_core|iptc|xmp_core|photoshop|processing)_`). -/
def matcherPrePats : List Str :=
  [strOf "lifestyle_", strOf "product_", strOf "orbit_", strOf "dublin_core_",
   strOf "iptc_", strOf "xmp_core_", strOf "photoshop_", strOf "processing_"]

/-- JavaScript `replace(/_/g, ' ')`. -/
def underscoreToSpace (s : Str) : Str :=
  s.map (fun c => if c = '_' then ' ' else c)

/-- `fieldMatchesPattern` from `create-metadata-report.ts`: the
five-method multi-strategy matcher (exact, schema-stripped, final
segment, word-bag, substring either way). -/
def fieldMatchesPattern (key fieldPattern schemaType : Str) : Bool :=
  let _ := schemaType
  let keyLower := lowerStr key
  let patternLower := lowerStr fieldPattern
  if key = fieldPattern || keyLower = patternLower then true
  else
    let keyWithoutSchema := stripFirstPat matcherPrePats key
    if keyWithoutSchema = fieldPattern || containsSub fieldPattern keyWithoutSchema ||
       containsSub fieldPattern key then true
    else
      let categoryParts := splitOnC '_' fieldPattern
      let m3 :=
        if categoryParts.length > 1 then
          let lastPart := categoryParts.getLastD []
          keyWithoutSchema = lastPart || containsSub (lowerStr lastPart) keyLower
        else false
      if m3 then true
      else
        let keyWords := (splitOnC ' ' (underscoreToSpace keyLower)).filter
          (fun w => w.length > 2)
        let patternWords := (splitOnC ' ' (underscoreToSpace patternLower)).filter
          (fun w => w.length > 2)
        let hasAllPatternWords := patternWords.length > 0 &&
          patternWords.all (fun pw => keyWords.any
            (fun kw => containsSub pw kw || containsSub kw pw))
        if hasAllPatternWords then true
        else containsSub patternLower keyLower || containsSub keyLower patternLower

/-- One category of the report's static tables. -/
structure CategoryDef where
  name : Str
  emoji : Str
  fields : List Str

/-- The `standardCategories` shared by all three schema tables. -/
def standardCategories : List CategoryDef :=
  [{ name := strOf "Image Metadata", emoji := strOf "📋",
     fields := [strOf "dublin_core_title", strOf "dublin_core_description",
       strOf "dublin_core_subject", strOf "dublin_core_creator", strOf "dublin_core_rights",
       strOf "dublin_core_format", strOf "dublin_core_identifier"] },
   { name := strOf "Technical Metadata", emoji := strOf "📷",
     fields := [strOf "xmp_core_creator_tool", strOf "xmp_core_create_date",
       strOf "xmp_core_metadata_date", strOf "xmp_core_toolkit", strOf "photoshop_color_mode",
       strOf "iptc_source", strOf "iptc_instructions", strOf "iptc_person_in_image"] },
   { name := strOf "Processing Metadata", emoji := strOf "⚙️",
     fields := [strOf "processing_processed_timestamp", strOf "processing_processor_version",
       strOf "processing_schema_type", strOf "processing_processor_location"] }]

/-- The lifestyle category table of `initializeCategoryMaps`. -/
def lifestyleCategories : List CategoryDef :=
  standardCategories ++
  [{ name := strOf "Scene Overview", emoji := strOf "📊",
     fields := [strOf "scene_overview_setting", strOf "setting",
       strOf "scene_overview_time_of_day", strOf "time_of_day", strOf "scene_overview_season",
       strOf "season", strOf "scene_overview_occasion", strOf "occasion",
       strOf "scene_overview_primary_activity", strOf "primary_activity"] },
   { name := strOf "Human Elements", emoji := strOf "👥",
     fields := [strOf "human_elements_number_of_people", strOf "number_of_people",
       strOf "human_elements_social_dynamics", strOf "social_dynamics",
       strOf "human_elements_demographics", strOf "demographics",
       strOf "human_elements_interactions", strOf "interactions",
       strOf "human_elements_emotional_states", strOf "emotional_states",
       strOf "human_elements_clothing_style", strOf "clothing_style"] },
   { name := strOf "Environment", emoji := strOf "🌍",
     fields := [strOf "environment_location_type", strOf "location_type",
       strOf "environment_architectural_elements", strOf "architectural_elements",
       strOf "environment_natural_elements", strOf "natural_elements",
       strOf "environment_urban_context", strOf "urban_context",
       strOf "environment_spatial_arrangement", strOf "spatial_arrangement"] },
   { name := strOf "Key Objects", emoji := strOf "🏺",
     fields := [strOf "key_objects_food_beverage", strOf "food_and_beverage",
       strOf "key_objects_furniture", strOf "furniture", strOf "key_objects_technology",
       strOf "technology", strOf "key_objects_decorative_items", strOf "decorative_items",
       strOf "key_objects_defining_props", strOf "defining_props",
       strOf "key_objects_personal_items", strOf "personal_items"] },
   { name := strOf "Atmospheric Elements", emoji := strOf "🌅",
     fields := [strOf "atmospheric_elements_lighting_quality", strOf "lighting_quality",
       strOf "atmospheric_elements_color_palette", strOf "color_palette",
       strOf "atmospheric_elements_primary_colors", strOf "primary_colors",
       strOf "atmospheric_elements_mood", strOf "mood",
       strOf "atmospheric_elements_mood_indicators", strOf "mood_indicators",
       strOf "atmospheric_elements_sensory_cues", strOf "sensory_cues",
       strOf "atmospheric_elements_weather_conditions", strOf "weather_conditions"] },
   { name := strOf "Narrative Analysis", emoji := strOf "📖",
     fields := [strOf "narrative_analysis_story", strOf "narrative_analysis_story_elements",
       strOf "story_implied", strOf "Story_Implied",
       strOf "narrative_analysis_cultural_significance", strOf "cultural_significance",
       strOf "narrative_analysis_cultural_context", strOf "cultural_context",
       strOf "historical_context", strOf "Historical_Context",
       strOf "narrative_analysis_socioeconomic_indicators", strOf "socioeconomic_indicators",
       strOf "narrative_analysis_values_represented", strOf "values_represented",
       strOf "narrative_analysis_lifestyle_category", strOf "lifestyle_values"] },
   { name := strOf "Photographic Elements", emoji := strOf "📷",
     fields := [strOf "photographic_elements_composition", strOf "composition",
       strOf "photographic_elements_perspective", strOf "perspective",
       strOf "photographic_elements_focal_points", strOf "focal_points",
       strOf "photographic_elements_depth_of_field", strOf "depth_of_field",
       strOf "photographic_elements_visual_style", strOf "visual_style",
       strOf "photographic_elements_technical_qualities", strOf "technical_qualities"] },
   { name := strOf "Marketing Potential", emoji := strOf "🎯",
     fields := [strOf "marketing_potential_target_demographic", strOf "target_demographic",
       strOf "marketing_potential_aspirational_elements", strOf "aspirational_elements",
       strOf "marketing_potential_brand_alignment_opportunities",
       strOf "brand_alignment_opportunities",
       strOf "marketing_potential_emotional_hooks", strOf "emotional_hooks",
       strOf "marketing_potential_market_appeal", strOf "alignment_opportunities"] }]

/-- The product category table of `initializeCategoryMaps`. -/
def productCategories : List CategoryDef :=
  standardCategories ++
  [{ name := strOf "Product Identification", emoji := strOf "🏷️",
     fields := [strOf "product_identification_product_type", strOf "product_type",
       strOf "product_identification_product_category", strOf "product_category",
       strOf "product_identification_design_style", strOf "design_style",
       strOf "product_identification_brand", strOf "brand",
       strOf "product_identification_model", strOf "model"] },
   { name := strOf "Physical Characteristics", emoji := strOf "🔍",
     fields := [strOf "physical_characteristics_primary_color", strOf "primary_color",
       strOf "physical_characteristics_secondary_colors", strOf "secondary_colors",
       strOf "physical_characteristics_material", strOf "material",
       strOf "physical_characteristics_pattern_type", strOf "pattern_type",
       strOf "physical_characteristics_surface_texture", strOf "surface_texture",
       strOf "physical_characteristics_finish", strOf "finish",
       strOf "physical_characteristics_dimensions", strOf "dimensions",
       strOf "physical_characteristics_weight", strOf "weight"] },
   { name := strOf "Structural Elements", emoji := strOf "🏗️",
     fields := [strOf "structural_elements_frame_type", strOf "frame_type",
       strOf "structural_elements_frame_design", strOf "frame_design",
       strOf "structural_elements_leg_structure", strOf "leg_structure",
       strOf "structural_elements_support_systems", strOf "support_systems",
       strOf "structural_elements_construction_details", strOf "construction_details"] },
   { name := strOf "Design Attributes", emoji := strOf "🎨",
     fields := [strOf "design_attributes_aesthetic_category", strOf "aesthetic_category",
       strOf "design_attributes_design_era", strOf "design_era",
       strOf "design_attributes_visual_weight", strOf "visual_weight",
       strOf "design_attributes_design_influence", strOf "design_influence",
       strOf "design_attributes_style_elements", strOf "style_elements",
       strOf "design_attributes_intended_setting", strOf "intended_setting"] },
   { name := strOf "Commercial Analysis", emoji := strOf "💼",
     fields := [strOf "commercial_analysis_market_positioning", strOf "market_positioning",
       strOf "commercial_analysis_target_market", strOf "target_market",
       strOf "commercial_analysis_price_point_indication", strOf "price_point",
       strOf "commercial_analysis_competitive_advantages", strOf "competitive_advantages",
       strOf "commercial_analysis_market_differentiation", strOf "market_differentiation",
       strOf "commercial_analysis_retail_category", strOf "retail_category"] },
   { name := strOf "Quality Assessment", emoji := strOf "⭐",
     fields := [strOf "quality_assessment_construction_quality", strOf "construction_quality",
       strOf "quality_assessment_material_quality", strOf "material_quality",
       strOf "quality_assessment_finish_quality", strOf "finish_quality",
       strOf "quality_assessment_craftsmanship_level", strOf "craftsmanship_level",
       strOf "quality_assessment_durability_indicators", strOf "durability_indicators",
       strOf "quality_assessment_value_proposition", strOf "value_proposition"] }]

/-- The orbit category table of `initializeCategoryMaps`. -/
def orbitCategories : List CategoryDef :=
  standardCategories ++
  [{ name := strOf "Scene Overview", emoji := strOf "📊",
     fields := [strOf "scene_overview_setting", strOf "scene_overview_time_of_day",
       strOf "scene_overview_activities", strOf "scene_overview_overall_mood",
       strOf "scene_overview_scene_complexity"] },
   { name := strOf "Human Elements", emoji := strOf "👥",
     fields := [strOf "human_elements_people_count", strOf "human_elements_age_groups",
       strOf "human_elements_gender_distribution", strOf "human_elements_ethnicity_diversity",
       strOf "human_elements_interactions", strOf "human_elements_emotions"] },
   { name := strOf "Environment", emoji := strOf "🌍",
     fields := [strOf "environment_location_type", strOf "environment_architecture_style",
       strOf "environment_natural_elements", strOf "environment_weather_conditions",
       strOf "environment_lighting_conditions"] },
   { name := strOf "Key Objects", emoji := strOf "🏺",
     fields := [strOf "key_objects_products", strOf "key_objects_technology",
       strOf "key_objects_furniture", strOf "key_objects_vehicles",
       strOf "key_objects_notable_items"] },
   { name := strOf "Atmospheric Elements", emoji := strOf "🌅",
     fields := [strOf "atmospheric_elements_color_scheme",
       strOf "atmospheric_elements_lighting_quality", strOf "atmospheric_elements_visual_mood",
       strOf "atmospheric_elements_energy_level", strOf "atmospheric_elements_aesthetic_style"] },
   { name := strOf "Narrative Analysis", emoji := strOf "📖",
     fields := [strOf "narrative_analysis_story_elements",
       strOf "narrative_analysis_cultural_context", strOf "narrative_analysis_social_dynamics",
       strOf "narrative_analysis_values_expressed",
       strOf "narrative_analysis_lifestyle_indicators"] },
   { name := strOf "Photographic Elements", emoji := strOf "📷",
     fields := [strOf "photographic_elements_composition_style",
       strOf "photographic_elements_camera_angle", strOf "photographic_elements_depth_of_field",
       strOf "photographic_elements_focus_points",
       strOf "photographic_elements_technical_quality"] },
   { name := strOf "Marketing Potential", emoji := strOf "🎯",
     fields := [strOf "marketing_potential_demographics",
       strOf "marketing_potential_psychographics", strOf "marketing_potential_brand_categories",
       strOf "marketing_potential_emotional_appeal",
       strOf "marketing_potential_commercial_viability"] }]

/-- `schemaCategoryMap[schemaType] || []`. -/
def schemaCategoryMap (schemaType : Str) : List CategoryDef :=
  if schemaType = strOf "lifestyle" then lifestyleCategories
  else if schemaType = strOf "product" then productCategories
  else if schemaType = strOf "orbit" then orbitCategories
  else []

/-- `Object.entries(v)` for object-like values (arrays enumerate index
keys, as in JavaScript). -/
def entriesOf : Json → Option (List (Str × Json))
  | Json.obj fs => some fs
  | Json.arr xs => some ((xs.enum).map (fun p => (intToStr p.1, p.2)))
  | _ => none

/-- The result triple of `organizeMetadataByCategories`. -/
structure OrganizedResult where
  categories : List (CategoryDef × List (Str × Json))
  totalCategories : Nat
  totalFields : Nat

/-- Keys of `schemaData` claimed by one pattern: not the Ledger key, not
already assigned, and matching under `fieldMatchesPattern`. -/
def claimKeys (keys : List Str) (assigned : List Str) (pat schemaType : Str) : List Str :=
  keys.filter (fun k =>
    !(k = rawJsonKey) && !(assigned.contains k) && fieldMatchesPattern k pat schemaType)

/-- Process one category's pattern list: accumulate claimed keys in
claim order, extending the assigned set pattern by pattern. -/
def processCategory (keys : List Str) (schemaType : Str) (cat : CategoryDef)
    (assigned : List Str) : List Str × List Str :=
  cat.fields.foldl
    (fun acc pat =>
      let m := claimKeys keys acc.2 pat schemaType
      (acc.1 ++ m, acc.2 ++ m))
    ([], assigned)

/-- Fold step over the category table, carrying the category output
list, the assigned-key set and the field count. -/
def organizeStep (keys : List Str) (lookupV : Str → Json) (schemaType : Str)
    (acc : List (CategoryDef × List (Str × Json)) × List Str × Nat) (cat : CategoryDef) :
    List (CategoryDef × List (Str × Json)) × List Str × Nat :=
  let r := processCategory keys schemaType cat acc.2.1
  (acc.1 ++ (if r.1 = [] then [] else [(cat, r.1.map (fun k => (k, lookupV k)))]),
   r.2, acc.2.2 + r.1.length)

/-- The synthetic trailing catch-all category. -/
def additionalCategory : CategoryDef :=
  { name := strOf "Additional Metadata", emoji := strOf "📝", fields := [] }

/-- The schema-data selection at the top of
`organizeMetadataByCategories`: a truthy object (or array) at the
schema-type key gives the nested entries, anything else leaves the flat
map. -/
def schemaDataOf (metadata : List (Str × Json)) (schemaType : Str) : List (Str × Json) :=
  match (metadata.find? (fun p => p.1 = schemaType)).map Prod.snd with
  | some v => (entriesOf v).getD metadata
  | none => metadata

/-- The key list of the selected schema data. -/
def organizeKeys (metadata : List (Str × Json)) (schemaType : Str) : List Str :=
  (schemaDataOf metadata schemaType).map Prod.fst

/-- Value lookup `schemaData[key]` used when building category field
maps. -/
def organizeLookup (metadata : List (Str × Json)) (schemaType : Str) (k : Str) : Json :=
  ((((schemaDataOf metadata schemaType).find? (fun p => p.1 = k)).map Prod.snd).getD
    Json.null)

/-- The category-table fold of `organizeMetadataByCategories`. -/
def organizeFolded (metadata : List (Str × Json)) (schemaType : Str) :
    List (CategoryDef × List (Str × Json)) × List Str × Nat :=
  (schemaCategoryMap schemaType).foldl
    (organizeStep (organizeKeys metadata schemaType)
      (organizeLookup metadata schemaType) schemaType) ([], [], 0)

/-- The keys claimed by no category (the catch-all content; the
`Raw_JSON` key is excluded here as well). -/
def organizeUnmatched (metadata : List (Str × Json)) (schemaType : Str) : List Str :=
  (organizeKeys metadata schemaType).filter
    (fun k => !((organizeFolded metadata schemaType).2.1.contains k) && !(k = rawJsonKey))

/-- `organizeMetadataByCategories` from `create-metadata-report.ts`:
exclusive first-match-wins assignment of schema-data keys to the
categories of the schema's table, with unclaimed keys collected into
the synthetic "Additional Metadata" category; the `Raw_JSON` key is
excluded throughout. -/
def organizeMetadataByCategories (metadata : List (Str × Json)) (schemaType : Str) :
    OrganizedResult :=
  let folded := organizeFolded metadata schemaType
  let unmatched := organizeUnmatched metadata schemaType
  let cats := folded.1 ++
    (if unmatched = [] then []
     else [(additionalCategory,
       unmatched.map (fun k => (k, organizeLookup metadata schemaType k)))])
  { categories := cats,
    totalCategories := cats.length,
    totalFields := folded.2.2 + unmatched.length }

/-- Fuel-indexed worker for the newline variant of the period repair,
`replace(/\.\s*\n\s*"/g, ',\n  "')` in `extractRawJSONFromMetadata`:
a period, a whitespace run containing at least one newline, then a
quote. -/
def repairNLF : Nat → Str → Str
  | 0, s => s
  | _ + 1, [] => []
  | fuel + 1, c :: t =>
    if c = '.' then
      if (t.takeWhile jsWs).contains '\n' then
        match t.drop (t.takeWhile jsWs).length with
        | q :: r2 =>
          if q = quoteC then ',' :: '\n' :: ' ' :: ' ' :: quoteC :: repairNLF fuel r2
          else '.' :: repairNLF fuel t
        | [] => '.' :: repairNLF fuel t
      else '.' :: repairNLF fuel t
    else c :: repairNLF fuel t

/-- The newline period repair proper. -/
def repairNL (s : Str) : Str := repairNLF (s.length + 1) s

/-- The conditional cleanup `extractRawJSONFromMetadata` applies before
`JSON.parse`: both period-separator repairs, guarded by a quick
containment probe. -/
def cleanRawJsonStr (s : Str) : Str :=
  if containsSub (strOf ".\n  \"") s || containsSub (strOf ". \"") s then
    repairJSON (repairNL s)
  else s

/-- One candidate source of the `Raw_JSON` string: present, truthy and
of string type. -/
def rawJsonCandidate (o : Option Json) : Option Str :=
  match o with
  | some (Json.str s) => if s = [] then none else some s
  | _ => none

/-- `extractRawJSONFromMetadata` from `create-metadata-report.ts`: try
the root and the three schema keys in order; the first candidate string
that parses (after cleanup) wins; parse failures fall through to the
next source. -/
def extractRawJSONFromMetadata (metadata : List (Str × Json)) : Option Json :=
  let md := Json.obj metadata
  let sources : List (Option Json) :=
    [getField md rawJsonKey,
     getFieldOpt (getField md (strOf "lifestyle")) rawJsonKey,
     getFieldOpt (getField md (strOf "product")) rawJsonKey,
     getFieldOpt (getField md (strOf "orbit")) rawJsonKey]
  sources.foldl
    (fun acc o =>
      match acc with
      | some v => some v
      | none =>
        match rawJsonCandidate o with
        | some s => jsonParse (cleanRawJsonStr s)
        | none => none)
    none

/-- `metadata.x && typeof metadata.x === 'object'`: a truthy value of
object type (objects and arrays; `null` is falsy). -/
def isObjLike : Json → Bool
  | Json.obj _ => true
  | Json.arr _ => true
  | _ => false

/-- The schema tag the detector reads from the Ledger:
`rawJson && rawJson.processing && rawJson.processing.schema_type`,
each link checked for truthiness. -/
def ledgerSchemaTag (metadata : List (Str × Json)) : Option Json :=
  let rawJson := extractRawJSONFromMetadata metadata
  if truthyOpt rawJson &&
     truthyOpt (getFieldOpt rawJson (strOf "processing")) &&
     truthyOpt (getFieldOpt (getFieldOpt rawJson (strOf "processing")) (strOf "schema_type"))
  then getFieldOpt (getFieldOpt rawJson (strOf "processing")) (strOf "schema_type")
  else none

/-- The `lifestylePatterns` scoring vocabulary of `detectSchemaType`. -/
def lifestyleScorePats : List Str :=
  [strOf "lifestyle_", strOf "emotional_hooks", strOf "target_demographic",
   strOf "social_dynamics", strOf "marketing_potential", strOf "aspirational_elements",
   strOf "brand_alignment", strOf "cultural_significance", strOf "lifestyle_values",
   strOf "socioeconomic_indicators"]

/-- The `productPatterns` scoring vocabulary of `detectSchemaType`. -/
def productScorePats : List Str :=
  [strOf "product_", strOf "commercial_analysis", strOf "target_market",
   strOf "price_point", strOf "design_style", strOf "material_quality",
   strOf "construction_quality", strOf "market_positioning", strOf "product_type",
   strOf "physical_characteristics"]

/-- The `orbitPatterns` scoring vocabulary of `detectSchemaType`. -/
def orbitScorePats : List Str :=
  [strOf "orbit_", strOf "scene_complexity", strOf "energy_level",
   strOf "aesthetic_style", strOf "visual_mood", strOf "commercial_viability",
   strOf "photographic_elements"]

/-- `keys.join(' ').toLowerCase()`: the key vocabulary string scored by
`detectSchemaType`. -/
def schemaKeyString (metadata : List (Str × Json)) : Str :=
  lowerStr (joinSep [' '] (metadata.map Prod.fst))

/-- Substring-hit count of a pattern list against the key string. -/
def scoreOf (pats : List Str) (ks : Str) : Nat :=
  (pats.filter (fun p => containsSub p ks)).length

/-- The detector's nested-schema test
`metadata[ns] && typeof metadata[ns] === 'object'`. -/
def schemaObjAt (metadata : List (Str × Json)) (ns : Str) : Bool :=
  match getField (Json.obj metadata) ns with
  | some v => truthy v && isObjLike v
  | none => false

/-- `detectSchemaType` from `create-metadata-report.ts`: nested schema
objects first, then the Ledger's processing tag, then pattern scoring
with strict winners, then prefix containment, then the `lifestyle`
default.  The Ledger tag is returned as the dynamic value found there
(normally a string). -/
def detectSchemaTypeR (metadata : List (Str × Json)) : Json :=
  if schemaObjAt metadata (strOf "lifestyle") then Json.str (strOf "lifestyle")
  else if schemaObjAt metadata (strOf "product") then Json.str (strOf "product")
  else if schemaObjAt metadata (strOf "orbit") then Json.str (strOf "orbit")
  else
    match ledgerSchemaTag metadata with
    | some tag => tag
    | none =>
      let ks := schemaKeyString metadata
      let lifestyleMatches := scoreOf lifestyleScorePats ks
      let productMatches := scoreOf productScorePats ks
      let orbitMatches := scoreOf orbitScorePats ks
      if lifestyleMatches > productMatches ∧ lifestyleMatches > orbitMatches then
        Json.str (strOf "lifestyle")
      else if productMatches > lifestyleMatches ∧ productMatches > orbitMatches then
        Json.str (strOf "product")
      else if orbitMatches > lifestyleMatches ∧ orbitMatches > productMatches then
        Json.str (strOf "orbit")
      else if containsSub (strOf "lifestyle_") ks then Json.str (strOf "lifestyle")
      else if containsSub (strOf "product_") ks then Json.str (strOf "product")
      else if containsSub (strOf "orbit_") ks then Json.str (strOf "orbit")
      else Json.str (strOf "lifestyle")

end Report

namespace MCP

/-- Projection used by theorem statements: the string at key `k` of an
object, `none` when absent or of another type. -/
def getStrField (v : Json) (k : Str) : Option Str :=
  match getField v k with
  | some (Json.str s) => some s
  | _ => none

/-- Boolean test that a dynamic value is exactly the string `s`. -/
def strValIs (v : Json) (s : Str) : Bool :=
  match v with
  | Json.str t => t = s
  | _ => false

end MCP

namespace MCP

theorem toNat_ofNat_lt {n : Nat} (h : n < 55296) : (Char.ofNat n).toNat = n := by
  rw [Char.ofNat, dif_pos (Or.inl (by omega : n < 55296))]
  rfl

theorem jsUpperChar_idem (c : Char) : jsUpperChar (jsUpperChar c) = jsUpperChar c := by
  by_cases h : 97 ≤ c.toNat ∧ c.toNat ≤ 122
  · have h2 : (Char.ofNat (c.toNat - 32)).toNat = c.toNat - 32 := toNat_ofNat_lt (by omega)
    simp only [jsUpperChar, if_pos h, h2]
    rw [if_neg (by omega)]
  · simp only [jsUpperChar, if_neg h]

theorem jsLowerChar_idem (c : Char) : jsLowerChar (jsLowerChar c) = jsLowerChar c := by
  by_cases h : 65 ≤ c.toNat ∧ c.toNat ≤ 90
  · have h2 : (Char.ofNat (c.toNat + 32)).toNat = c.toNat + 32 := toNat_ofNat_lt (by omega)
    simp only [jsLowerChar, if_pos h, h2]
    rw [if_neg (by omega)]
  · simp only [jsLowerChar, if_neg h]

theorem jsUpperChar_eq_underscore {c : Char} (h : jsUpperChar c = '_') : c = '_' := by
  by_cases h1 : 97 ≤ c.toNat ∧ c.toNat ≤ 122
  · exfalso
    have h2 : (Char.ofNat (c.toNat - 32)).toNat = c.toNat - 32 := toNat_ofNat_lt (by omega)
    have h3 : jsUpperChar c = Char.ofNat (c.toNat - 32) := by
      simp only [jsUpperChar, if_pos h1]
    rw [h3] at h
    have h4 := congrArg Char.toNat h
    rw [h2] at h4
    have : ('_' : Char).toNat = 95 := by decide
    omega
  · simpa only [jsUpperChar, if_neg h1] using h

theorem jsLowerChar_eq_underscore {c : Char} (h : jsLowerChar c = '_') : c = '_' := by
  by_cases h1 : 65 ≤ c.toNat ∧ c.toNat ≤ 90
  · exfalso
    have h2 : (Char.ofNat (c.toNat + 32)).toNat = c.toNat + 32 := toNat_ofNat_lt (by omega)
    have h3 : jsLowerChar c = Char.ofNat (c.toNat + 32) := by
      simp only [jsLowerChar, if_pos h1]
    rw [h3] at h
    have h4 := congrArg Char.toNat h
    rw [h2] at h4
    have : ('_' : Char).toNat = 95 := by decide
    omega
  · simpa only [jsLowerChar, if_neg h1] using h

theorem mem_of_isPre {p s : Str} (h : isPre p s = true) : ∀ c ∈ p, c ∈ s := by
  induction p generalizing s with
  | nil => intro c hc; cases hc
  | cons a t ih =>
    cases s with
    | nil => simp [isPre] at h
    | cons b u =>
      simp only [isPre, Bool.and_eq_true, decide_eq_true_eq] at h
      intro c hc
      rcases List.mem_cons.mp hc with h1 | h1
      · exact List.mem_cons.mpr (Or.inl (h1.trans h.1))
      · exact List.mem_cons.mpr (Or.inr (ih h.2 c h1))

theorem splitOnC_ne_nil (sep : Char) (s : Str) : splitOnC sep s ≠ [] := by
  cases s with
  | nil => simp [splitOnC]
  | cons c cs =>
    simp only [splitOnC]
    rcases h : splitOnC sep cs with _ | ⟨h1, t1⟩
    · simp
    · by_cases hc : c = sep <;> simp [hc]

theorem splitOnC_eq_single {sep : Char} {s w : Str} (h : splitOnC sep s = [w]) :
    w = s ∧ sep ∉ s := by
  induction s generalizing w with
  | nil =>
    simp only [splitOnC, List.cons.injEq] at h
    exact ⟨h.1.symm, by simp⟩
  | cons c cs ih =>
    rcases h2 : splitOnC sep cs with _ | ⟨h1, t1⟩
    · exact absurd h2 (splitOnC_ne_nil sep cs)
    · simp only [splitOnC, h2] at h
      by_cases hc : c = sep
      · rw [if_pos hc] at h
        simp at h
      · rw [if_neg hc] at h
        simp only [List.cons.injEq] at h
        obtain ⟨hw, ht⟩ := h
        subst ht
        obtain ⟨h3, h4⟩ := ih h2
        subst h3
        constructor
        · exact hw.symm
        · intro hmem
          rcases List.mem_cons.mp hmem with h5 | h5
          · exact hc h5.symm
          · exact h4 h5

theorem splitOnC_of_not_mem {sep : Char} {s : Str} (h : sep ∉ s) :
    splitOnC sep s = [s] := by
  induction s with
  | nil => rfl
  | cons c cs ih =>
    have hc : c ≠ sep := fun he => h (he ▸ List.mem_cons_self c cs)
    have hcs : sep ∉ cs := fun hm => h (List.mem_cons_of_mem c hm)
    simp only [splitOnC, ih hcs]
    rw [if_neg (fun he => hc he)]

theorem mem_joinSep_of_two {sep : Str} {l : List Str} {c : Char}
    (hl : 2 ≤ l.length) (hc : c ∈ sep) : c ∈ joinSep sep l := by
  match l with
  | x :: y :: t =>
    simp only [joinSep, List.append_assoc, List.mem_append]
    exact Or.inr (Or.inl hc)

theorem joinSep_single (sep : Str) (w : Str) : joinSep sep [w] = w := rfl

theorem titleWord_no_underscore {w : Str} (h : '_' ∉ w) : '_' ∉ titleWord w := by
  intro hmem
  cases w with
  | nil => simp [titleWord] at hmem
  | cons c t =>
    simp only [titleWord, List.mem_cons, List.mem_map] at hmem
    rcases hmem with h1 | ⟨d, hd, he⟩
    · exact h (List.mem_cons.mpr (Or.inl (jsUpperChar_eq_underscore h1.symm).symm))
    · exact h (List.mem_cons.mpr (Or.inr ((jsLowerChar_eq_underscore he) ▸ hd)))

theorem titleWord_idem (w : Str) : titleWord (titleWord w) = titleWord w := by
  cases w with
  | nil => rfl
  | cons c t =>
    simp only [titleWord, jsUpperChar_idem, List.map_map, List.cons.injEq, true_and]
    exact List.map_congr_left (fun d _ => jsLowerChar_idem d)

theorem toTitleCase_no_underscore {s : Str} (h : '_' ∉ s) :
    toTitleCase s = titleWord s := by
  rw [toTitleCase, splitOnC_of_not_mem h]
  rfl

theorem stripFirstPat_id {pats : List Str} {k : Str}
    (hp : ∀ p ∈ pats, '_' ∈ p) (hk : '_' ∉ k) : stripFirstPat pats k = k := by
  rw [stripFirstPat, List.find?_eq_none.mpr]
  intro p hmem hpre
  exact hk (mem_of_isPre hpre '_' (hp p hmem))

theorem beautifyCore_no_underscore {w : Str} (h : '_' ∉ w) : beautifyCore w = w := by
  have h1 : stripFirstPat schemaPrePats w = w :=
    stripFirstPat_id (by decide) h
  have h2 : stripFirstPat sectionPrePats w = w :=
    stripFirstPat_id (by decide) h
  simp only [beautifyCore, h1, h2, splitOnC_of_not_mem h]
  rfl

theorem beautify_no_underscore {w : Str} (h : '_' ∉ w) :
    beautifyFieldName w = titleWord w := by
  rw [beautifyFieldName, beautifyCore_no_underscore h, toTitleCase_no_underscore h]

/-- Claim C5 (amended): `beautifyFieldName` is a deterministic function
of the key alone, and it is idempotent on every key whose display name
is a single word (contains no space); multi-word display names are not
fixed points (see the counterexample theorem). -/
theorem c5_beautify_idempotent_single_word (k : Str)
    (h : ' ' ∉ beautifyFieldName k) :
    beautifyFieldName (beautifyFieldName k) = beautifyFieldName k := by
  have hb : beautifyFieldName k = toTitleCase (beautifyCore k) := rfl
  rw [toTitleCase] at hb
  rcases h2 : (splitOnC '_' (beautifyCore k)).map titleWord with _ | ⟨w1, t1⟩
  · exact absurd (List.map_eq_nil_iff.mp h2) (splitOnC_ne_nil '_' (beautifyCore k))
  · rcases t1 with _ | ⟨w2, t2⟩
    · have hlen : (splitOnC '_' (beautifyCore k)).length = 1 := by
        have h3 := congrArg List.length h2
        simpa using h3
      obtain ⟨y, hy⟩ := List.length_eq_one.mp hlen
      obtain ⟨he, h5⟩ := splitOnC_eq_single hy
      rw [he] at hy
      have h4 := hy
      rw [h4] at h2
      simp only [List.map_cons, List.map_nil, List.cons.injEq] at h2
      have hk : beautifyFieldName k = titleWord (beautifyCore k) := by
        rw [hb, h4]
        rfl
      rw [hk]
      rw [beautify_no_underscore (titleWord_no_underscore h5)]
      exact titleWord_idem (beautifyCore k)
    · exfalso
      rw [h2] at hb
      exact h (hb ▸ mem_joinSep_of_two (by simp) (List.mem_singleton.mpr rfl))

/-- Claim C5 (counterexample): `beautifyFieldName` is not idempotent —
on the key `time_of_day` it produces `Time Of Day`, while a second
application produces `Time of day`. -/
theorem c5_counterexample :
    beautifyFieldName (strOf "time_of_day") = strOf "Time Of Day" ∧
    beautifyFieldName (beautifyFieldName (strOf "time_of_day")) = strOf "Time of day" ∧
    strOf "Time of day" ≠ strOf "Time Of Day" := by
  refine ⟨by decide, by decide, by decide⟩

/-- Claim C5 witness: the single-word display name `Setting` is a fixed
point. -/
theorem c5_witness :
    ' ' ∉ beautifyFieldName (strOf "setting") ∧
    beautifyFieldName (beautifyFieldName (strOf "setting")) =
      beautifyFieldName (strOf "setting") :=
  ⟨by decide, c5_beautify_idempotent_single_word (strOf "setting") (by decide)⟩

/-- Claim C9: the display name of `lifestyle_scene_overview_time_of_day`
is exactly `Time Of Day`: the schema and section prefixes are stripped,
the whole-idiom pattern keeps `time_of_day` intact, and title-casing
capitalizes each token. -/
theorem c9_time_of_day_display_name :
    beautifyFieldName (strOf "lifestyle_scene_overview_time_of_day") =
      strOf "Time Of Day" := by decide

/-- Claim C4: `embedXMPInImage` on any non-JPEG buffer returns the
format error and no result (the embedding is a pure function, so the
input buffer is never mutated). -/
theorem c4_embed_non_jpeg_error (buffer : Bytes) (xmpPacket : Str)
    (h : isJPEG buffer = false) :
    embedXMPInImage buffer xmpPacket = Except.error
      (strOf "XMP embedding failed: Image must be JPEG format for XMP embedding. Use ImageConverter to convert first.") := by
  rw [embedXMPInImage, h]
  rfl

/-- Claim C4 witness: a PNG signature is rejected. -/
theorem c4_witness :
    isJPEG [137, 80, 78, 71, 13, 10, 26, 10] = false ∧
    embedXMPInImage [137, 80, 78, 71, 13, 10, 26, 10] (strOf "packet") = Except.error
      (strOf "XMP embedding failed: Image must be JPEG format for XMP embedding. Use ImageConverter to convert first.") :=
  ⟨by decide, c4_embed_non_jpeg_error [137, 80, 78, 71, 13, 10, 26, 10] (strOf "packet")
    (by decide)⟩

/-- Claim C3: the extractor's skip on a non-matching APP1 segment
overshoots by one byte (`i += segmentLength + 2` plus the loop's `i++`),
so an XMP APP1 segment placed immediately after a non-XMP APP1 segment
is missed: on a JPEG holding a 4-byte junk APP1 segment followed by a
well-formed XMP segment with payload `Z`, extraction returns nothing,
although the same XMP segment alone is found. -/
theorem c3_adjacent_xmp_missed :
    extractXMPFromJPEG ([255, 216] ++ [255, 225, 0, 4, 65, 65] ++
      ([255, 225, 0, 32] ++ xmpSigBytes ++ [90])) = none ∧
    extractXMPFromJPEG ([255, 216] ++ ([255, 225, 0, 32] ++ xmpSigBytes ++ [90])) =
      some (strOf "Z") :=
  ⟨by decide, by decide⟩

/-- Claim C1: the Ledger round trip is not lossless.  Serializing the
tree `{note: "End. "}` with `createXMPPacket`, then extracting,
XML-unescaping, period-repairing and JSON-decoding the `Raw_JSON`
element (the `parseXMPContent` Ledger path) yields an
`original_metadata.note` of `"End, "`: the repair regex
`replace(/\.\s+"/g, ', "')` rewrites the period-space ending of the
value itself. -/
theorem c1_ledger_roundtrip_corrupts_period_space :
    getStrField (Json.obj [(strOf "note", Json.str (strOf "End. "))]) (strOf "note") =
      some (strOf "End. ") ∧
    getStrField (parseXMPContent
        (createXMPPacket (Json.obj [(strOf "note", Json.str (strOf "End. "))])
          (strOf "orbit") true true true (strOf "2024-01-01T00:00:00.000Z")).xmp_content)
      (strOf "note") = some (strOf "End, ") :=
  ⟨by decide, by decide⟩

/-- Claim C7: the container classifier checks the unordered vocabulary
first, so any field whose lower-cased canonical name or original key
contains the token `technology` is classified as an unordered bag,
whatever its values. -/
theorem c7_technology_unordered (fieldName originalKey : Str) (values : List Str)
    (h : containsSub (strOf "technology") (lowerStr fieldName) = true ∨
         containsSub (strOf "technology") (lowerStr originalKey) = true) :
    getSemanticContainerType fieldName originalKey values = ContainerType.bag := by
  rw [getSemanticContainerType, if_pos]
  apply List.any_eq_true.mpr
  refine ⟨strOf "technology", by decide, ?_⟩
  rcases h with h | h
  · simp [h]
  · simp [h]

/-- Claim C7 witness: the field produced from key
`lifestyle_key_objects_technology` (canonical name `Technology`) is
classified `bag` even though the key also contains the ordered-vocabulary
token `key_objects`. -/
theorem c7_witness :
    containsSub (strOf "key_objects") (strOf "lifestyle_key_objects_technology") = true ∧
    getSemanticContainerType
      (wsToUnderscore (beautifyFieldName (strOf "lifestyle_key_objects_technology")))
      (strOf "lifestyle_key_objects_technology")
      [strOf "laptop", strOf "phone"] = ContainerType.bag :=
  ⟨by decide,
   c7_technology_unordered _ _ _ (Or.inr (by decide))⟩

/-- Claim C10: `extractXMPFromImage` is total at its public interface:
for every byte buffer it returns a record, which is either the
not-found record (all optional fields absent) or a found record built
from a nonempty extracted payload, its parsed metadata and the detected
schema. -/
theorem c10_extract_total (buffer : Bytes) :
    extractXMPFromImage buffer =
      { xmp_found := false, xmp_content := none, parsed_metadata := none,
        schema_type := none } ∨
    ∃ s, extractXMPFromJPEG buffer = some s ∧ s ≠ [] ∧
      extractXMPFromImage buffer =
        { xmp_found := true, xmp_content := some s,
          parsed_metadata := some (parseXMPContent s),
          schema_type := some (detectSchemaTypeX (parseXMPContent s)) } := by
  rw [extractXMPFromImage]
  by_cases hj : isJPEG buffer
  · rw [if_pos hj]
    rcases hx : extractXMPFromJPEG buffer with _ | s
    · exact Or.inl rfl
    · by_cases hs : s = []
      · subst hs
        simp only [if_pos rfl]
        exact Or.inl rfl
      · simp only [if_neg hs]
        exact Or.inr ⟨s, rfl, hs, rfl⟩
  · rw [if_neg hj]
    exact Or.inl rfl

end MCP

namespace Report

open MCP

/-- Claim C8 (counterexample): on the flat map
`{product_x: 1, emotional_hooks: 2}` none of the schema keys holds an
object, the Ledger tag is absent, and the pattern scoring ties 1-1-0
(no strict winner), yet `detectSchemaType` returns `product` — the
prefix-containment fallback fires before the documented `lifestyle`
default. -/
theorem c8_counterexample :
    schemaObjAt [(strOf "product_x", Json.num 1), (strOf "emotional_hooks", Json.num 2)]
      (strOf "lifestyle") = false ∧
    schemaObjAt [(strOf "product_x", Json.num 1), (strOf "emotional_hooks", Json.num 2)]
      (strOf "product") = false ∧
    schemaObjAt [(strOf "product_x", Json.num 1), (strOf "emotional_hooks", Json.num 2)]
      (strOf "orbit") = false ∧
    (ledgerSchemaTag [(strOf "product_x", Json.num 1),
      (strOf "emotional_hooks", Json.num 2)]).isSome = false ∧
    scoreOf lifestyleScorePats (schemaKeyString [(strOf "product_x", Json.num 1),
      (strOf "emotional_hooks", Json.num 2)]) = 1 ∧
    scoreOf productScorePats (schemaKeyString [(strOf "product_x", Json.num 1),
      (strOf "emotional_hooks", Json.num 2)]) = 1 ∧
    scoreOf orbitScorePats (schemaKeyString [(strOf "product_x", Json.num 1),
      (strOf "emotional_hooks", Json.num 2)]) = 0 ∧
    strValIs (detectSchemaTypeR [(strOf "product_x", Json.num 1),
      (strOf "emotional_hooks", Json.num 2)]) (strOf "product") = true := by
  refine ⟨by decide, by decide, by decide, by decide, by decide, by decide, by decide,
    by decide⟩

/-- Claim C8 (amended): when no schema key holds a truthy object, the
Ledger carries no schema tag, the pattern scoring has no strict winner,
and the key vocabulary either contains `lifestyle_` or contains neither
`product_` nor `orbit_`, schema detection returns `lifestyle`. -/
theorem c8_detect_default_lifestyle (md : List (Str × Json))
    (h1 : schemaObjAt md (strOf "lifestyle") = false)
    (h2 : schemaObjAt md (strOf "product") = false)
    (h3 : schemaObjAt md (strOf "orbit") = false)
    (h4 : (ledgerSchemaTag md).isSome = false)
    (h5 : ¬(scoreOf lifestyleScorePats (schemaKeyString md) >
              scoreOf productScorePats (schemaKeyString md) ∧
            scoreOf lifestyleScorePats (schemaKeyString md) >
              scoreOf orbitScorePats (schemaKeyString md)))
    (h6 : ¬(scoreOf productScorePats (schemaKeyString md) >
              scoreOf lifestyleScorePats (schemaKeyString md) ∧
            scoreOf productScorePats (schemaKeyString md) >
              scoreOf orbitScorePats (schemaKeyString md)))
    (h7 : ¬(scoreOf orbitScorePats (schemaKeyString md) >
              scoreOf lifestyleScorePats (schemaKeyString md) ∧
            scoreOf orbitScorePats (schemaKeyString md) >
              scoreOf productScorePats (schemaKeyString md)))
    (h8 : containsSub (strOf "lifestyle_") (schemaKeyString md) = true ∨
          (containsSub (strOf "product_") (schemaKeyString md) = false ∧
           containsSub (strOf "orbit_") (schemaKeyString md) = false)) :
    detectSchemaTypeR md = Json.str (strOf "lifestyle") := by
  have hnone : ledgerSchemaTag md = none := by
    cases h : ledgerSchemaTag md with
    | none => rfl
    | some v => rw [h] at h4; simp at h4
  rw [detectSchemaTypeR, if_neg (by simp [h1]), if_neg (by simp [h2]),
    if_neg (by simp [h3]), hnone]
  simp only
  rw [if_neg h5, if_neg h6, if_neg h7]
  rcases h8 with h8 | ⟨hp, ho⟩
  · rw [if_pos (by simp [h8])]
  · by_cases hl : containsSub (strOf "lifestyle_") (schemaKeyString md) = true
    · rw [if_pos (by simp [hl])]
    · rw [if_neg (by simpa using hl), if_neg (by simp [hp]), if_neg (by simp [ho])]

/-- Claim C8 witness: a map with a single unrecognized key satisfies
every premise and detection returns `lifestyle`. -/
theorem c8_witness :
    detectSchemaTypeR [(strOf "foo", Json.num 1)] = Json.str (strOf "lifestyle") :=
  c8_detect_default_lifestyle [(strOf "foo", Json.num 1)] (by decide) (by decide)
    (by decide) (by decide) (by decide) (by decide) (by decide)
    (Or.inr ⟨by decide, by decide⟩)

theorem claimKeys_spec (keys assigned : List Str) (pat st : Str) :
    (∀ k ∈ claimKeys keys assigned pat st,
      k ∈ keys ∧ k ∉ assigned ∧ k ≠ rawJsonKey) ∧
    (keys.Nodup → (claimKeys keys assigned pat st).Nodup) := by
  constructor
  · intro k hk
    rw [claimKeys, List.mem_filter] at hk
    obtain ⟨h1, h2⟩ := hk
    simp only [Bool.and_eq_true, Bool.not_eq_true', decide_eq_false_iff_not] at h2
    refine ⟨h1, by simpa using h2.1.2, h2.1.1⟩
  · intro h
    exact h.filter _

theorem processCategory_spec (keys : List Str) (st : Str) (pats : List Str) :
    ∀ acc : List Str × List Str, keys.Nodup → acc.2.Nodup →
    ∃ m, (pats.foldl (fun acc pat =>
        let m := claimKeys keys acc.2 pat st
        (acc.1 ++ m, acc.2 ++ m)) acc) = (acc.1 ++ m, acc.2 ++ m) ∧
      (acc.2 ++ m).Nodup ∧
      (∀ k ∈ m, k ∈ keys ∧ k ∉ acc.2 ∧ k ≠ rawJsonKey) := by
  induction pats with
  | nil =>
    intro acc _ h2
    exact ⟨[], by simp, by simpa using h2, by simp⟩
  | cons pat pats ih =>
    intro acc hkeys hacc
    have hm0 := claimKeys_spec keys acc.2 pat st
    have hdisj : List.Disjoint acc.2 (claimKeys keys acc.2 pat st) := by
      intro x hx1 hx2
      exact (hm0.1 x hx2).2.1 hx1
    have hacc2 : (acc.2 ++ claimKeys keys acc.2 pat st).Nodup :=
      hacc.append (hm0.2 hkeys) hdisj
    obtain ⟨m1, he, hn, hp⟩ := ih
      (acc.1 ++ claimKeys keys acc.2 pat st, acc.2 ++ claimKeys keys acc.2 pat st)
      hkeys hacc2
    refine ⟨claimKeys keys acc.2 pat st ++ m1, ?_, ?_, ?_⟩
    · simpa [List.append_assoc] using he
    · simpa [List.append_assoc] using hn
    · intro k hk
      rcases List.mem_append.mp hk with hk | hk
      · exact hm0.1 k hk
      · have h4 := hp k hk
        refine ⟨h4.1, fun hmem => h4.2.1 (List.mem_append.mpr (Or.inl hmem)), h4.2.2⟩

theorem organizeFold_spec (keys : List Str) (lookupV : Str → Json) (st : Str)
    (cats : List CategoryDef) (hkeys : keys.Nodup) :
    ∀ acc : List (CategoryDef × List (Str × Json)) × List Str × Nat,
    acc.2.1.Nodup →
    ∃ ms : List Str,
      (cats.foldl (organizeStep keys lookupV st) acc).2.1 = acc.2.1 ++ ms ∧
      (cats.foldl (organizeStep keys lookupV st) acc).2.2 = acc.2.2 + ms.length ∧
      ((cats.foldl (organizeStep keys lookupV st) acc).1.flatMap
        (fun c => c.2.map Prod.fst)) =
        (acc.1.flatMap (fun c => c.2.map Prod.fst)) ++ ms ∧
      (((cats.foldl (organizeStep keys lookupV st) acc).1.map
        (fun c => c.2.length)).sum) = ((acc.1.map (fun c => c.2.length)).sum) + ms.length ∧
      (acc.2.1 ++ ms).Nodup ∧
      (∀ k ∈ ms, k ∈ keys ∧ k ∉ acc.2.1 ∧ k ≠ rawJsonKey) := by
  induction cats with
  | nil =>
    intro acc h1
    exact ⟨[], by simp, by simp, by simp, by simp, by simpa using h1, by simp⟩
  | cons cat cats ih =>
    intro acc h1
    obtain ⟨m0, he0, hn0, hp0⟩ := processCategory_spec keys st cat.fields ([], acc.2.1)
      hkeys (by simpa using h1)
    simp only [List.nil_append] at he0 hn0 hp0
    have hstep : organizeStep keys lookupV st acc cat =
        (acc.1 ++ (if m0 = [] then [] else [(cat, m0.map (fun k => (k, lookupV k)))]),
         acc.2.1 ++ m0, acc.2.2 + m0.length) := by
      rw [organizeStep, processCategory, he0]
    obtain ⟨m1, ha1, ha2, ha3, ha4, ha5, ha6⟩ :=
      ih (organizeStep keys lookupV st acc cat) (by rw [hstep]; exact hn0)
    simp only [hstep] at ha1 ha2 ha3 ha4 ha5 ha6
    simp only [List.foldl_cons, hstep]
    refine ⟨m0 ++ m1, ?_, ?_, ?_, ?_, ?_, ?_⟩
    · rw [ha1]
      simp [List.append_assoc]
    · rw [ha2]
      simp only [List.length_append]
      omega
    · rw [ha3]
      by_cases hm : m0 = []
      · subst hm; simp
      · rw [if_neg hm]
        simp [List.append_assoc, List.map_map, Function.comp_def]
    · rw [ha4]
      by_cases hm : m0 = []
      · subst hm; simp
      · rw [if_neg hm]
        simp only [List.map_append, List.map_cons, List.map_nil, List.sum_append,
          List.length_append, List.length_map, List.sum_cons, List.sum_nil]
        omega
    · rw [← List.append_assoc]
      exact ha5
    · intro k hk
      rcases List.mem_append.mp hk with hk | hk
      · exact hp0 k hk
      · have h4 := ha6 k hk
        refine ⟨h4.1, fun hmem => h4.2.1 (List.mem_append.mpr (Or.inl hmem)), h4.2.2⟩

theorem filter_length_split (l : List Str) (p q : Str → Bool) :
    (l.filter p).length =
      (l.filter (fun x => p x && q x)).length +
      (l.filter (fun x => p x && !q x)).length := by
  induction l with
  | nil => simp
  | cons a t ih =>
    simp only [List.filter_cons]
    by_cases hp : p a <;> by_cases hq : q a <;> simp [hp, hq, ih] <;> omega

theorem filter_mem_length (l A : List Str) (hA : A.Nodup) (hl : l.Nodup)
    (hsub : ∀ a ∈ A, a ∈ l) :
    (l.filter (fun x => A.contains x)).length = A.length := by
  have hperm : List.Perm (l.filter (fun x => A.contains x)) A := by
    rw [List.perm_ext_iff_of_nodup (hl.filter _) hA]
    intro a
    simp only [List.mem_filter]
    constructor
    · intro h
      simpa using h.2
    · intro h
      exact ⟨hsub a h, by simpa using h⟩
  exact hperm.length_eq

/-- Claim C6 (amended): provided the selected schema data has distinct
keys, `organizeMetadataByCategories` assigns every key other than the
reserved Ledger key `Raw_JSON` to exactly one category: the per-category
field counts (catch-all included) sum to `totalFields`, `totalFields`
equals the number of distinct non-`Raw_JSON` keys, and no key appears
in two categories. -/
theorem c6_organize_partition (schemaType : Str) (metadata : List (Str × Json))
    (hkeys : (organizeKeys metadata schemaType).Nodup) :
    ((organizeMetadataByCategories metadata schemaType).categories.map
      (fun c => c.2.length)).sum =
      (organizeMetadataByCategories metadata schemaType).totalFields ∧
    (organizeMetadataByCategories metadata schemaType).totalFields =
      ((organizeKeys metadata schemaType).filter (fun k => !(k = rawJsonKey))).length ∧
    ((organizeMetadataByCategories metadata schemaType).categories.flatMap
      (fun c => c.2.map Prod.fst)).Nodup := by
  obtain ⟨ms, hm1, hm2, hm3, hm4, hm5, hm6⟩ := organizeFold_spec
    (organizeKeys metadata schemaType) (organizeLookup metadata schemaType) schemaType
    (schemaCategoryMap schemaType) hkeys ([], [], 0) (by simp)
  simp only [List.nil_append, List.flatMap_nil, List.map_nil, List.sum_nil,
    Nat.zero_add, List.not_mem_nil, not_false_iff, true_and]
    at hm1 hm2 hm3 hm4 hm5 hm6
  have hfold : organizeFolded metadata schemaType = (schemaCategoryMap schemaType).foldl
      (organizeStep (organizeKeys metadata schemaType)
        (organizeLookup metadata schemaType) schemaType) ([], [], 0) := rfl
  rw [← hfold] at hm1 hm2 hm3 hm4
  have hum : organizeUnmatched metadata schemaType =
      (organizeKeys metadata schemaType).filter
        (fun k => !(ms.contains k) && !(k = rawJsonKey)) := by
    rw [organizeUnmatched, hm1]
  have hsub : ∀ a ∈ ms, a ∈ organizeKeys metadata schemaType := fun a ha => (hm6 a ha).1
  have hraw : ∀ a ∈ ms, a ≠ rawJsonKey := fun a ha => (hm6 a ha).2
  refine ⟨?_, ?_, ?_⟩
  · simp only [organizeMetadataByCategories]
    by_cases hu : organizeUnmatched metadata schemaType = []
    · simp [hu, hm4, hm2]
    · rw [if_neg hu]
      simp only [List.map_append, List.map_cons, List.map_nil, List.sum_append,
        List.sum_cons, List.sum_nil, List.length_map, hm4, hm2]
      omega
  · simp only [organizeMetadataByCategories, hm2, hum]
    have hsplit := filter_length_split (organizeKeys metadata schemaType)
      (fun k => !(k = rawJsonKey)) (fun k => ms.contains k)
    have hcongr1 : (organizeKeys metadata schemaType).filter
        (fun k => !(k = rawJsonKey) && ms.contains k) =
        (organizeKeys metadata schemaType).filter (fun k => ms.contains k) := by
      apply List.filter_congr
      intro k _
      cases hk : ms.contains k
      · simp
      · have hne : k ≠ rawJsonKey := hraw k (by simpa using hk)
        simp [hne]
    have hcongr2 : (organizeKeys metadata schemaType).filter
        (fun k => !(ms.contains k) && !(k = rawJsonKey)) =
        (organizeKeys metadata schemaType).filter
          (fun k => !(k = rawJsonKey) && !(ms.contains k)) := by
      apply List.filter_congr
      intro k _
      exact Bool.and_comm _ _
    have hlen := filter_mem_length (organizeKeys metadata schemaType) ms hm5 hkeys hsub
    rw [hcongr1, hlen] at hsplit
    rw [hcongr2]
    omega
  · simp only [organizeMetadataByCategories]
    by_cases hu : organizeUnmatched metadata schemaType = []
    · simpa [hu, hm3] using hm5
    · rw [if_neg hu]
      simp only [List.flatMap_append, List.flatMap_cons, List.flatMap_nil,
        List.append_nil, hm3, List.map_map]
      have hmm : List.map (Prod.fst ∘ fun k =>
          (k, organizeLookup metadata schemaType k))
          (organizeUnmatched metadata schemaType) =
          organizeUnmatched metadata schemaType := by
        simp [Function.comp_def]
      rw [hmm, hum]
      refine hm5.append (hkeys.filter _) ?_
      intro x hx1 hx2
      rw [List.mem_filter] at hx2
      have h9 := hx2.2
      simp only [Bool.and_eq_true, Bool.not_eq_true'] at h9
      have hx3 : x ∉ ms := by simpa using h9.1
      exact hx3 hx1

/-- Claim C6 (counterexample): on the flat map
`{Raw_JSON: "x", custom_zzz: "y"}` with two distinct keys, the reserved
key `Raw_JSON` is excluded from every category and from the catch-all,
so the per-category field counts sum to 1, not 2. -/
theorem c6_counterexample :
    (organizeKeys [(strOf "Raw_JSON", Json.str (strOf "x")),
      (strOf "custom_zzz", Json.str (strOf "y"))] (strOf "lifestyle")).Nodup ∧
    (organizeKeys [(strOf "Raw_JSON", Json.str (strOf "x")),
      (strOf "custom_zzz", Json.str (strOf "y"))] (strOf "lifestyle")).length = 2 ∧
    (organizeMetadataByCategories [(strOf "Raw_JSON", Json.str (strOf "x")),
      (strOf "custom_zzz", Json.str (strOf "y"))] (strOf "lifestyle")).totalFields = 1 := by
  refine ⟨by decide, by decide, by decide⟩

/-- Claim C6 witness: a one-field lifestyle map satisfies the premise
and the partition equations. -/
theorem c6_witness :
    ((organizeMetadataByCategories [(strOf "setting", Json.str (strOf "x"))]
      (strOf "lifestyle")).categories.map (fun c => c.2.length)).sum =
      (organizeMetadataByCategories [(strOf "setting", Json.str (strOf "x"))]
        (strOf "lifestyle")).totalFields ∧
    (organizeMetadataByCategories [(strOf "setting", Json.str (strOf "x"))]
      (strOf "lifestyle")).totalFields =
      ((organizeKeys [(strOf "setting", Json.str (strOf "x"))] (strOf "lifestyle")).filter
        (fun k => !(k = rawJsonKey))).length ∧
    ((organizeMetadataByCategories [(strOf "setting", Json.str (strOf "x"))]
      (strOf "lifestyle")).categories.flatMap (fun c => c.2.map Prod.fst)).Nodup :=
  c6_organize_partition (strOf "lifestyle") [(strOf "setting", Json.str (strOf "x"))]
    (by decide)

end Report

namespace MCP

theorem char_toNat_lt (c : Char) : c.toNat < 1114112 := by
  rcases c.valid with h | h
  · exact Nat.lt_trans h (by norm_num)
  · exact h.2

theorem utf8SM_encodeChar (c : Char) (rest : Bytes) :
    utf8DecodeSM none (utf8EncodeChar c ++ rest) = c :: utf8DecodeSM none rest := by
  have hv : c.toNat < 1114112 := char_toNat_lt c
  rw [utf8EncodeChar]
  by_cases h1 : c.toNat < 128
  · rw [if_pos h1]
    simp only [List.cons_append, List.nil_append, utf8DecodeSM]
    rw [if_pos h1, Char.ofNat_toNat]
    rfl
  · rw [if_neg h1]
    by_cases h2 : c.toNat < 2048
    · rw [if_pos h2]
      simp only [List.cons_append, List.nil_append, utf8DecodeSM]
      rw [if_neg (by omega), if_pos (by omega : 192 ≤ 192 + c.toNat / 64 ∧
        192 + c.toNat / 64 < 224),
        if_pos (by omega : 128 ≤ 128 + c.toNat % 64 ∧ 128 + c.toNat % 64 < 192),
        if_pos (by omega : (1 : Nat) ≤ 1)]
      have hE : (192 + c.toNat / 64 - 192) * 64 + (128 + c.toNat % 64 - 128) = c.toNat := by
        omega
      rw [hE, Char.ofNat_toNat]
      rfl
    · rw [if_neg h2]
      by_cases h3 : c.toNat < 65536
      · rw [if_pos h3]
        simp only [List.cons_append, List.nil_append, utf8DecodeSM]
        rw [if_neg (by omega), if_neg (by omega), if_pos (by omega :
          224 ≤ 224 + c.toNat / 4096 ∧ 224 + c.toNat / 4096 < 240),
          if_pos (by omega : 128 ≤ 128 + c.toNat / 64 % 64 ∧
            128 + c.toNat / 64 % 64 < 192), if_neg (by omega : ¬((2 : Nat) ≤ 1)),
          if_pos (by omega : 128 ≤ 128 + c.toNat % 64 ∧ 128 + c.toNat % 64 < 192),
          if_pos (by omega : (2 : Nat) - 1 ≤ 1)]
        have hE : ((224 + c.toNat / 4096 - 224) * 64 + (128 + c.toNat / 64 % 64 - 128)) *
            64 + (128 + c.toNat % 64 - 128) = c.toNat := by omega
        rw [hE, Char.ofNat_toNat]
        rfl
      · rw [if_neg h3]
        simp only [List.cons_append, List.nil_append, utf8DecodeSM]
        rw [if_neg (by omega), if_neg (by omega), if_neg (by omega), if_pos (by omega :
          240 ≤ 240 + c.toNat / 262144 ∧ 240 + c.toNat / 262144 < 248),
          if_pos (by omega : 128 ≤ 128 + c.toNat / 4096 % 64 ∧
            128 + c.toNat / 4096 % 64 < 192), if_neg (by omega : ¬((3 : Nat) ≤ 1)),
          if_pos (by omega : 128 ≤ 128 + c.toNat / 64 % 64 ∧
            128 + c.toNat / 64 % 64 < 192), if_neg (by omega : ¬((3 : Nat) - 1 ≤ 1)),
          if_pos (by omega : 128 ≤ 128 + c.toNat % 64 ∧ 128 + c.toNat % 64 < 192),
          if_pos (by omega : (3 : Nat) - 1 - 1 ≤ 1)]
        have hE : (((240 + c.toNat / 262144 - 240) * 64 + (128 + c.toNat / 4096 % 64 - 128)) *
            64 + (128 + c.toNat / 64 % 64 - 128)) * 64 + (128 + c.toNat % 64 - 128) =
            c.toNat := by omega
        rw [hE, Char.ofNat_toNat]
        rfl

theorem utf8_roundtrip (s : Str) : utf8Decode (utf8Encode s) = s := by
  induction s with
  | nil => rfl
  | cons c t ih =>
    have h1 : utf8Encode (c :: t) = utf8EncodeChar c ++ utf8Encode t := by
      simp [utf8Encode]
    rw [utf8Decode, h1, utf8SM_encodeChar]
    exact congrArg (c :: ·) ih

theorem utf8EncodeChar_ne_nil (c : Char) : utf8EncodeChar c ≠ [] := by
  rw [utf8EncodeChar]
  by_cases h1 : c.toNat < 128
  · simp [h1]
  · rw [if_neg h1]
    by_cases h2 : c.toNat < 2048
    · simp [h2]
    · rw [if_neg h2]
      by_cases h3 : c.toNat < 65536
      · simp [h3]
      · simp [h3]

theorem utf8Encode_eq_nil {p : Str} (h : utf8Encode p = []) : p = [] := by
  cases p with
  | nil => rfl
  | cons c t =>
    exfalso
    have h1 : utf8Encode (c :: t) = utf8EncodeChar c ++ utf8Encode t := by
      simp [utf8Encode]
    rw [h1] at h
    exact utf8EncodeChar_ne_nil c (List.append_eq_nil.mp h).1

/-- One scan step past a marker pair that is not an XMP APP1 marker:
the loop advances one byte. -/
theorem scanXMP_step (b0 b1 b2 b3 : Nat) (t : Bytes)
    (hg : (b1 :: b2 :: b3 :: t).length + 1 > 30)
    (hm : ¬(b0 = 255 ∧ b1 = 225)) :
    scanXMP 0 (b0 :: b1 :: b2 :: b3 :: t) = scanXMP 0 (b1 :: b2 :: b3 :: t) := by
  conv_lhs => rw [scanXMP.eq_def]
  simp only [List.get?]
  rw [if_pos hg, if_neg hm]

/-- The scan step on an APP1 marker whose body starts with the XMP
signature: the declared segment length is read from the two bytes after
the marker and the payload slice is decoded. -/
theorem scanXMP_found (hi lo : Nat) (t : Bytes)
    (hg : (225 :: hi :: lo :: t).length + 1 > 30)
    (hpre : xmpSigBytes.isPrefixOf t = true) :
    scanXMP 0 (255 :: 225 :: hi :: lo :: t) =
      some (utf8Decode (sliceJS (255 :: 225 :: hi :: lo :: t) 33
        ((33 : Int) + (((hi * 256 + lo : Nat) : Int) - 31)))) := by
  conv_lhs => rw [scanXMP.eq_def]
  simp only [List.get?, List.drop_succ_cons, List.drop_zero]
  rw [if_pos hg, if_pos (⟨trivial, trivial⟩ : True ∧ True), if_pos hpre]

/-- The signature is a prefix of anything it is prepended to. -/
theorem sig_isPre (r : Bytes) : xmpSigBytes.isPrefixOf (xmpSigBytes ++ r) = true := by
  rw [List.isPrefixOf_iff_prefix]
  exact List.prefix_append _ _

/-- Claim C2 (amended): for a JPEG buffer and a packet whose UTF-8
encoding fits the 2-byte APP1 length field (at most 65504 bytes, so
that `totalLength = 31 + n` stays below 65536), extraction after
embedding returns the packet unchanged, and the embedded buffer is
exactly the first two input bytes, the APP1 segment, and every
remaining input byte in order.  The original claim omits the length
bound; `c2_counterexample` shows it is necessary. -/
theorem c2_extract_embed (buffer : Bytes) (p : Str)
    (h1 : isJPEG buffer = true)
    (h2 : (utf8Encode p).length ≤ 65504) :
    extractXMPFromJPEG (embedXMPInJPEG buffer p) = some p ∧
    embedXMPInJPEG buffer p =
      buffer.take 2 ++ app1HeaderOf (utf8Encode p).length ++ utf8Encode p ++ buffer.drop 2 := by
  refine ⟨?_, rfl⟩
  match buffer, h1 with
  | b0 :: b1 :: rest, h1 =>
    have hb0 : b0 = 255 := by
      simp [isJPEG] at h1; omega
    have hb1 : b1 = 216 := by
      simp [isJPEG] at h1; omega
    subst hb0 hb1
    set xmp := utf8Encode p with hxmp
    set n := xmp.length with hn
    have hshape : embedXMPInJPEG (255 :: 216 :: rest) p =
        255 :: 216 :: 255 :: 225 :: ((33 + n - 2) / 256 % 256) :: ((33 + n - 2) % 256) ::
          (xmpSigBytes ++ (xmp ++ rest)) := by
      simp [embedXMPInJPEG, app1HeaderOf, ← hxmp, ← hn, List.append_assoc]
    rw [extractXMPFromJPEG, hshape]
    have hlS : (xmpSigBytes ++ (xmp ++ rest)).length = 29 + n + rest.length := by
      simp [xmpSigBytes, strOf, ← hn]; omega
    rw [scanXMP_step 255 216 255 225 _ (by simp [hlS]; omega) (by simp),
        scanXMP_step 216 255 225 _ _ (by simp [hlS]; omega) (by simp),
        scanXMP_found _ _ _ (by simp [hlS]; omega) (sig_isPre _)]
    have hb : (33 + n - 2) / 256 % 256 = (33 + n - 2) / 256 := Nat.mod_eq_of_lt (by omega)
    have hseg : ((33 + n - 2) / 256 % 256) * 256 + ((33 + n - 2) % 256) = 31 + n := by
      rw [hb]; omega
    rw [hseg]
    have hstop : ((33 : Int) + (((31 + n : Nat) : Int) - 31)) = ((33 + n : Nat) : Int) := by
      push_cast; ring
    rw [hstop]
    have hslice : sliceJS (255 :: 225 :: ((33 + n - 2) / 256 % 256) :: ((33 + n - 2) % 256) ::
        (xmpSigBytes ++ (xmp ++ rest))) 33 ((33 + n : Nat) : Int) = xmp := by
      rcases Nat.eq_zero_or_pos n with h0 | hpos
      · rw [sliceJS, if_pos (by omega)]
        have hx0 : xmp = [] := List.length_eq_zero.mp (by omega)
        simp [hx0]
      · rw [sliceJS, if_neg (by push_cast; omega)]
        have hd : List.drop 33 (255 :: 225 :: ((33 + n - 2) / 256 % 256) :: ((33 + n - 2) % 256) ::
            (xmpSigBytes ++ (xmp ++ rest))) = xmp ++ rest := by
          have h29 : xmpSigBytes.length = 29 := by decide
          simp only [List.drop_succ_cons]
          rw [show List.drop 29 (xmpSigBytes ++ (xmp ++ rest)) = xmp ++ rest from by
            rw [show (29 : Nat) = xmpSigBytes.length from h29.symm, List.drop_left]]
        rw [hd, show ((33 + n : Nat) : Int).toNat - 33 = n from by omega]
        exact List.take_left' hn.symm
    rw [hslice, hxmp, utf8_roundtrip]

/-- Claim C2 witness: on the three-byte JPEG `FF D8 00` and the packet
`"hi"`, extraction returns the packet and the embedded bytes have the
stated shape. -/
theorem c2_witness :
    extractXMPFromJPEG (embedXMPInJPEG [255, 216, 0] (strOf "hi")) = some (strOf "hi") ∧
    embedXMPInJPEG [255, 216, 0] (strOf "hi") =
      [255, 216, 0].take 2 ++ app1HeaderOf (utf8Encode (strOf "hi")).length ++
        utf8Encode (strOf "hi") ++ [255, 216, 0].drop 2 :=
  c2_extract_embed [255, 216, 0] (strOf "hi") (by decide) (by decide)

/-- `'a'` encodes to the single byte 97, so a replicated-`'a'` string
encodes byte-for-byte. -/
theorem utf8Encode_replicate_a (k : Nat) :
    utf8Encode (List.replicate k 'a') = List.replicate k 97 := by
  induction k with
  | zero => rfl
  | succ k ih =>
    rw [List.replicate_succ, List.replicate_succ]
    show utf8EncodeChar 'a' ++ utf8Encode (List.replicate k 'a') = 97 :: List.replicate k 97
    rw [ih]
    rfl

/-- A packet of 65505 one-byte characters makes `totalLength = 65536`,
whose two length bytes are both zero: the extractor then computes
segment length 0 and slices an empty payload. -/
theorem c2_big (k : Nat) (hk : k = 65505) :
    extractXMPFromJPEG (embedXMPInJPEG [255, 216] (List.replicate k 'a')) = some [] := by
  have hx : utf8Encode (List.replicate k 'a') = List.replicate k 97 :=
    utf8Encode_replicate_a k
  have hhi : (33 + k - 2) / 256 % 256 = 0 := by omega
  have hlo : (33 + k - 2) % 256 = 0 := by omega
  have hshape : embedXMPInJPEG [255, 216] (List.replicate k 'a') =
      255 :: 216 :: 255 :: 225 :: 0 :: 0 ::
        (xmpSigBytes ++ (List.replicate k 97 ++ ([] : Bytes))) := by
    simp [embedXMPInJPEG, app1HeaderOf, hx, hhi, hlo, List.append_assoc]
  have hlS : (xmpSigBytes ++ (List.replicate k 97 ++ ([] : Bytes))).length = 29 + k := by
    simp [xmpSigBytes, strOf]; omega
  rw [extractXMPFromJPEG, hshape,
      scanXMP_step 255 216 255 225 _ (by simp [hlS]; omega) (by simp),
      scanXMP_step 216 255 225 0 _ (by simp [hlS]; omega) (by simp),
      scanXMP_found 0 0 _ (by simp [hlS]; omega) (sig_isPre _)]
  norm_num [sliceJS, utf8Decode, utf8DecodeSM]

/-- Claim C2 (counterexample): for the JPEG `FF D8` and the 65505-
character packet of `'a'`s, the 2-byte APP1 length field overflows to
zero and extraction returns the empty string, not the packet — so the
unbounded round-trip claim fails. -/
theorem c2_counterexample :
    extractXMPFromJPEG (embedXMPInJPEG [255, 216] (List.replicate 65505 'a')) = some [] ∧
    (List.replicate 65505 'a' : Str) ≠ [] := by
  constructor
  · exact c2_big 65505 rfl
  · intro h
    have hlen : (List.replicate 65505 'a').length = ([] : Str).length :=
      congrArg List.length h
    rw [List.length_replicate] at hlen
    exact absurd hlen (by decide)

end MCP
